import Mathlib

/-!
Verification of the platform-generator compiler (`src/json_platform_loader.cpp`).

The C++ source compiles a JSON platform description into SimGrid engine
objects (zones, hosts, links, routes, storage devices, filesystems), keeping
three file-scope registries `zone_map`, `link_map`, `storage_map`
(`std::map` from names to possibly-null handles).  This file shallowly embeds
that compiler:

* the parsed JSON document becomes typed configuration structures mirroring
  the document schema; fields that the C++ reads unconditionally through the
  checked-free `operator[]` are plain fields, fields the C++ guards with
  `contains(...)` are `Option`s.  The facility `routing` field is an `Option`
  because its absence is observable: the C++ reads it through the *const*
  `nlohmann::json::operator[]`, whose behaviour on a missing key is an
  assertion failure, modelled here as the error `BuildError.undefinedJsonAccess`.
* engine objects become records (`ZoneRec`, `HostRec`, `LinkRec`, `RouteRec`,
  `StorageRec`, `FsRec`).  Handles (C++ pointers) are represented by the
  object's name; a null pointer is `Option.none`.
* the registries become functions `String → Option (Option _)`: `none` means
  the key is absent, `some none` is an entry holding a null handle — exactly
  what `std::map::operator[]` default-inserts when it is read at a missing
  key — and `some (some r)` is an entry holding a real handle.  The
  `missedLookup` ghost flag records whether some registry read defaulted;
  it corresponds to the document violating the declare-before-use order.
* the `while (find/replace)` placeholder-substitution loop of
  `create_filesystems` becomes a step function `substStep` iterated under
  explicit fuel (`substLoop`); divergence of the C++ loop is `substLoop`
  returning `none` at every fuel.
* the registries are file-scope globals in the C++, so `load_platform` takes
  the registry state explicitly and never clears it.

The C++ `int` loop counters (`count`, `disk_count`) are embedded as `Nat`:
the loops `for (int i = 0; i < n; i++)` run `max n 0` times, and all claims
concern non-negative counts.
-/

set_option linter.unusedVariables false

namespace NRTW

/-! ## Placeholder substitution (`create_filesystems`, json_platform_loader.cpp:249-254)

The C++ is

  while ((pos = mount_point.find("\x7bhostname\x7d")) != std::string::npos) \x7b
    mount_point.replace(pos, 10, hostname);
  \x7d

(`pos` is the index of the leftmost occurrence, `replace` splices `hostname`
over the 10 pattern characters).  We embed strings as `List Char`. -/

/-- The placeholder pattern, `"\x7bhostname\x7d"` (10 characters). -/
def hostPat : List Char := "\x7bhostname\x7d".data

/-- Index of the leftmost occurrence of `hostPat`, as `std::string::find`
(`none` plays the role of `npos`). -/
def findPat : List Char → Option Nat
  | [] => none
  | c :: t => if hostPat.isPrefixOf (c :: t) then some 0 else (findPat (t)).map (· + 1)

/-- One iteration of the C++ loop body: find the leftmost occurrence and
splice `h` over its 10 characters; `none` when the loop guard fails. -/
def substStep (h s : List Char) : Option (List Char) :=
  match findPat s with
  | none => none
  | some i => some (s.take i ++ h ++ s.drop (i + 10))

/-- Recursive restatement of `substStep`, convenient for induction; proved
equal to `substStep` below (`substStep_eq_rec`). -/
def substStepRec (h : List Char) : List Char → Option (List Char)
  | [] => none
  | c :: t =>
    if hostPat.isPrefixOf (c :: t) then some (h ++ (c :: t).drop 10)
    else (substStepRec h t).map (c :: ·)

/-- The substitution `while` loop run under fuel counting loop iterations:
`some r` when the guard fails (loop exit) within `n` iterations, `none`
when the loop is still running after `n` iterations. -/
def substLoop (h : List Char) : Nat → List Char → Option (List Char)
  | 0, s => match substStep h s with | none => some s | some _ => none
  | n + 1, s => match substStep h s with | none => some s | some s2 => substLoop h n s2

/-- The C++ substitution loop terminates on pattern `s` with hostname `h`. -/
def SubstTerminates (h s : List Char) : Prop := ∃ n r, substLoop h n s = some r

/-- The C++ substitution loop never exits: at every fuel it is still running. -/
def SubstDiverges (h s : List Char) : Prop := ∀ n, substLoop h n s = none

/-! ## Engine-object records -/

/-- Sharing policy of a link; `create_cluster_zone` sets `FATPIPE` on
loopback links only. -/
inductive Sharing where
  | shared
  | fatpipe
deriving DecidableEq

/-- A disk created by `Host::add_disk`. -/
structure DiskRec where
  name : String
  read_bw : String
  write_bw : String
deriving DecidableEq

/-- A host created by `NetZone::add_host` (with the disks attached to it). -/
structure HostRec where
  name : String
  speed : String
  cores : Nat
  disks : List DiskRec
deriving DecidableEq

/-- A link created by `NetZone::add_link`. -/
structure LinkRec where
  name : String
  bandwidth : String
  latency : String
  sharing : Sharing
deriving DecidableEq

/-- A route endpoint: a host handle, a zone handle, or the null pointer
(`nullptr` designates the zone gateway in the host/host overload). -/
inductive Endpt where
  | host (n : String)
  | zone (n : String)
  | null
deriving DecidableEq

/-- A route created by `NetZone::add_route`.  Link handles may be null
(`none`) when `create_routes` read `link_map` at an absent key. -/
structure RouteRec where
  src : Endpt
  dst : Endpt
  links : List (Option String)
  symmetric : Bool
deriving DecidableEq

/-- Which `add_netzone_*` call created a zone. -/
inductive ZoneKind where
  | star
  | full
  | floyd
  | emptyZone
deriving DecidableEq

/-- A zone and the objects created inside it.  The registry stores the
final (sealed) record: the C++ map stores a pointer through which all
mutations made before sealing are visible. -/
structure ZoneRec where
  name : String
  kind : ZoneKind
  hosts : List HostRec
  links : List LinkRec
  routes : List RouteRec
  router : Option String
  sealed : Bool
deriving DecidableEq

/-- Variant tag of a storage device. -/
inductive StorageType where
  | oneDisk
  | jbod
deriving DecidableEq

/-- A storage device (`OneDiskStorage` or `JBODStorage`), holding the names
of its underlying disks. -/
structure StorageRec where
  name : String
  variant : StorageType
  disks : List String
deriving DecidableEq

/-- A partition mounted by `FileSystem::mount_partition`: mount path, the
storage handle it was given (null when the registry read defaulted), and
the declared capacity. -/
structure PartRec where
  mount : String
  storage : Option String
  size : String
deriving DecidableEq

/-- A filesystem created by `FileSystem::create`, with its partitions and
the zone handles it was registered against (in call order). -/
structure FsRec where
  name : String
  maxOpenFiles : Nat
  partitions : List PartRec
  registrations : List (Option String)
deriving DecidableEq

/-! ## Registries and build state -/

/-- A name registry (`std::map<std::string, T*>`): `none` = key absent,
`some none` = entry holding a null handle, `some (some r)` = entry holding
a real handle. -/
def Reg (R : Type) : Type := String → Option (Option R)

/-- The empty registry. -/
def regEmpty {R : Type} : Reg R := fun _ => none

/-- `m[k] = v`: insert or overwrite. -/
def regSet {R : Type} (m : Reg R) (k : String) (v : Option R) : Reg R :=
  fun q => if q = k then some v else m q

/-- The whole mutable state of the compiler: the three file-scope registries
of json_platform_loader.cpp:48-51, the filesystems created so far, and a
ghost flag recording whether any registry read defaulted (was performed at
an absent key, so that `operator[]` inserted a null entry). -/
structure BuildState where
  zones : Reg ZoneRec
  linkReg : Reg LinkRec
  storages : Reg StorageRec
  filesystems : List FsRec
  missedLookup : Bool

/-- The state at process start: all three registries empty. -/
def emptyState : BuildState :=
  { zones := regEmpty, linkReg := regEmpty, storages := regEmpty
    filesystems := [], missedLookup := false }

/-- `zone_map[k]` read: returns the stored handle, default-inserting a null
entry (and raising the ghost flag) when the key is absent. -/
def lookupZone (s : BuildState) (k : String) : Option ZoneRec × BuildState :=
  match s.zones k with
  | some v => (v, s)
  | none => (none, { s with zones := regSet s.zones k none, missedLookup := true })

/-- `link_map[k]` read, as `lookupZone`. -/
def lookupLink (s : BuildState) (k : String) : Option LinkRec × BuildState :=
  match s.linkReg k with
  | some v => (v, s)
  | none => (none, { s with linkReg := regSet s.linkReg k none, missedLookup := true })

/-- `storage_map[k]` read, as `lookupZone`. -/
def lookupStorage (s : BuildState) (k : String) : Option StorageRec × BuildState :=
  match s.storages k with
  | some v => (v, s)
  | none => (none, { s with storages := regSet s.storages k none, missedLookup := true })

/-! ## Configuration structures (the parsed JSON document, section 6 schema) -/

/-- Bandwidth/latency pair (backbone, private_link, loopback sub-objects). -/
structure LinkCfg where
  bandwidth : String
  latency : String
deriving DecidableEq

/-- Optional per-node storage template (`node.storage`). -/
structure NodeStorageCfg where
  name : String
  stype : String
  read_bandwidth : String
  write_bandwidth : String
deriving DecidableEq

/-- The cluster node template (`node`). -/
structure NodeCfg where
  speed : String
  cores : Nat
  private_link : LinkCfg
  loopback : LinkCfg
  storage : Option NodeStorageCfg
deriving DecidableEq

/-- One entry of `clusters`.  `namePrefix`/`nameSuffix` are the JSON fields
spelled `prefix`/`suffix`. -/
structure ClusterCfg where
  name : String
  namePrefix : String
  nameSuffix : String
  count : Nat
  backbone : LinkCfg
  node : NodeCfg
deriving DecidableEq

/-- One entry of `storage_systems`; `stype` is the JSON field `type`. -/
structure StorageSystemCfg where
  name : String
  server_speed : String
  stype : String
  disk_count : Nat
  read_bandwidth : String
  write_bandwidth : String
deriving DecidableEq

/-- One entry of the facility-scope `links` array. -/
structure IZLinkCfg where
  name : String
  bandwidth : String
  latency : String
deriving DecidableEq

/-- One entry of `routes`. -/
structure RouteCfg where
  src : String
  dst : String
  links : List String
deriving DecidableEq

/-- One entry of `facilities`.  `routing` is an `Option` because the C++
reads it through the unchecked const `operator[]`; the absent sections are
empty lists (the C++ guards them with `contains`, and iterating an absent
array and iterating an empty one are indistinguishable). -/
structure FacilityCfg where
  name : String
  routing : Option String
  storage_systems : List StorageSystemCfg
  clusters : List ClusterCfg
  links : List IZLinkCfg
  routes : List RouteCfg
deriving DecidableEq

/-- One entry of `filesystems`. -/
structure FsCfg where
  name : String
  mount_point : String
  size : String
  storage_system : Option String
  cluster : Option String
deriving DecidableEq

/-- The whole document. -/
structure Config where
  facilities : List FacilityCfg
  filesystems : List FsCfg
deriving DecidableEq

/-- Errors of the embedded compiler.  `undefinedJsonAccess` models the
assertion failure of the const `nlohmann::json::operator[]` on a missing
key; `substDiverged` models exhaustion of the substitution-loop fuel (at
every fuel it stands for genuine non-termination of the C++ loop). -/
inductive BuildError where
  | undefinedJsonAccess
  | substDiverged
deriving DecidableEq

/-! ## `create_storage_system_zone` (json_platform_loader.cpp:53-87) -/

/-- `create_storage_system_zone`: derived names, server host, type-dispatched
device creation (a silent no-op for unknown types), seal.  The zone record is
entered into `zone_map` with its final contents (the C++ inserts the pointer
first and mutates through it; nothing reads the entry in between). -/
def create_storage_system_zone (s : BuildState) (sc : StorageSystemCfg) : BuildState :=
  let server_name := sc.name ++ "_server"
  let storage_name := sc.name ++ "_storage"
  let disk_name_base := sc.name ++ "_disk"
  let disks : List DiskRec :=
    if sc.stype = "JBOD" then
      (List.range sc.disk_count).map (fun i =>
        { name := if sc.disk_count = 1 then disk_name_base else disk_name_base ++ toString i
          read_bw := sc.read_bandwidth, write_bw := sc.write_bandwidth })
    else if sc.stype = "OneDisk" then
      [{ name := disk_name_base, read_bw := sc.read_bandwidth, write_bw := sc.write_bandwidth }]
    else []
  let server : HostRec := { name := server_name, speed := sc.server_speed, cores := 1, disks := disks }
  let zone : ZoneRec :=
    { name := sc.name, kind := .emptyZone, hosts := [server], links := [], routes := []
      router := none, sealed := true }
  let storages2 :=
    if sc.stype = "JBOD" then
      regSet s.storages storage_name
        (some { name := storage_name, variant := .jbod, disks := disks.map DiskRec.name })
    else if sc.stype = "OneDisk" then
      regSet s.storages storage_name
        (some { name := storage_name, variant := .oneDisk, disks := [disk_name_base] })
    else s.storages
  { s with zones := regSet s.zones sc.name (some zone), storages := storages2 }

/-! ## `create_cluster_zone` (json_platform_loader.cpp:89-170) -/

/-- Hostname synthesis: `prefix + std::to_string(i) + suffix`. -/
def clusterHostname (c : ClusterCfg) (i : Nat) : String :=
  c.namePrefix ++ toString i ++ c.nameSuffix

/-- The loop body of `create_cluster_zone` for node index `i`: host (with
optional per-node storage disk), uplink, downlink, fat-pipe loopback, and
the three routes, appended to the zone under construction; per-node storage
devices are entered into `storage_map`. -/
def add_cluster_node (c : ClusterCfg) (acc : ZoneRec × Reg StorageRec) (i : Nat) :
    ZoneRec × Reg StorageRec :=
  let hostname := clusterHostname c i
  let backbone_name := c.name ++ "_backbone"
  let stObjs : List DiskRec × Reg StorageRec :=
    match c.node.storage with
    | none => ([], acc.2)
    | some sc =>
      let storage_name := hostname ++ "_" ++ sc.name
      let disk_name := storage_name ++ "_disk"
      let disk : DiskRec :=
        { name := disk_name, read_bw := sc.read_bandwidth, write_bw := sc.write_bandwidth }
      ([disk],
       if sc.stype = "OneDisk" then
         regSet acc.2 storage_name
           (some { name := storage_name, variant := .oneDisk, disks := [disk_name] })
       else if sc.stype = "JBOD" then
         regSet acc.2 storage_name
           (some { name := storage_name, variant := .jbod, disks := [disk_name] })
       else acc.2)
  let host : HostRec :=
    { name := hostname, speed := c.node.speed, cores := c.node.cores, disks := stObjs.1 }
  let link_up : LinkRec :=
    { name := hostname ++ "_LinkUP", bandwidth := c.node.private_link.bandwidth
      latency := c.node.private_link.latency, sharing := .shared }
  let link_down : LinkRec :=
    { name := hostname ++ "_LinkDOWN", bandwidth := c.node.private_link.bandwidth
      latency := c.node.private_link.latency, sharing := .shared }
  let loopback : LinkRec :=
    { name := hostname ++ "_loopback", bandwidth := c.node.loopback.bandwidth
      latency := c.node.loopback.latency, sharing := .fatpipe }
  let r_up : RouteRec :=
    { src := .host hostname, dst := .null
      links := [some link_up.name, some backbone_name], symmetric := false }
  let r_down : RouteRec :=
    { src := .null, dst := .host hostname
      links := [some backbone_name, some link_down.name], symmetric := false }
  let r_loop : RouteRec :=
    { src := .host hostname, dst := .host hostname
      links := [some loopback.name], symmetric := true }
  ({ acc.1 with
      hosts := acc.1.hosts ++ [host]
      links := acc.1.links ++ [link_up, link_down, loopback]
      routes := acc.1.routes ++ [r_up, r_down, r_loop] },
   stObjs.2)

/-- The node loop of `create_cluster_zone` together with the backbone link
created before it, producing the cluster zone's contents (before gateway
and seal) and the updated `storage_map`. -/
def cluster_expand (c : ClusterCfg) (st : Reg StorageRec) : ZoneRec × Reg StorageRec :=
  let z0 : ZoneRec :=
    { name := c.name, kind := .star, hosts := []
      links := [{ name := c.name ++ "_backbone", bandwidth := c.backbone.bandwidth
                  latency := c.backbone.latency, sharing := .shared }]
      routes := [], router := none, sealed := false }
  (List.range c.count).foldl (add_cluster_node c) (z0, st)

/-- `create_cluster_zone`: star zone, backbone, node loop, gateway router,
seal; the final record is entered into `zone_map` (see
`create_storage_system_zone` on insertion timing). -/
def create_cluster_zone (s : BuildState) (c : ClusterCfg) : BuildState :=
  let ex := cluster_expand c s.storages
  let zone : ZoneRec :=
    { ex.1 with router := some (c.name ++ "_router"), sealed := true }
  { s with zones := regSet s.zones c.name (some zone), storages := ex.2 }

/-! ## `create_inter_zone_links` and `create_routes` (json_platform_loader.cpp:172-200) -/

/-- The loop body of `create_inter_zone_links`: the link is added to the
facility zone and registered in `link_map`. -/
def iz_link_step (acc : ZoneRec × BuildState) (lc : IZLinkCfg) : ZoneRec × BuildState :=
  let lrec : LinkRec :=
    { name := lc.name, bandwidth := lc.bandwidth, latency := lc.latency, sharing := .shared }
  ({ acc.1 with links := acc.1.links ++ [lrec] },
   { acc.2 with linkReg := regSet acc.2.linkReg lc.name (some lrec) })

/-- `create_inter_zone_links` (json_platform_loader.cpp:172-181). -/
def create_inter_zone_links (fac : ZoneRec) (s : BuildState) (lks : List IZLinkCfg) :
    ZoneRec × BuildState :=
  lks.foldl iz_link_step (fac, s)

/-- One `link_map[name]` read of the link loop of `create_routes`. -/
def link_lookup_step (acc : List (Option String) × BuildState) (ln : String) :
    List (Option String) × BuildState :=
  let r := lookupLink acc.2 ln
  (acc.1 ++ [r.1.map LinkRec.name], r.2)

/-- Link-handle collection of `create_routes`: `link_map[name]` for each
listed name, in order (each read may default-insert a null entry). -/
def collectRouteLinks (s : BuildState) (names : List String) :
    List (Option String) × BuildState :=
  names.foldl link_lookup_step ([], s)

/-- The loop body of `create_routes`: read the source and destination zone
handles and the link handles out of the registries (null handles when
absent — the C++ `operator[]` raises no error) and add the route to the
facility zone. -/
def route_step (acc : ZoneRec × BuildState) (rc : RouteCfg) : ZoneRec × BuildState :=
  let rsrc := lookupZone acc.2 rc.src
  let rdst := lookupZone rsrc.2 rc.dst
  let rl := collectRouteLinks rdst.2 rc.links
  let srcE : Endpt := match rsrc.1 with | some z => .zone z.name | none => .null
  let dstE : Endpt := match rdst.1 with | some z => .zone z.name | none => .null
  ({ acc.1 with routes := acc.1.routes ++ [{ src := srcE, dst := dstE
                                             links := rl.1, symmetric := true }] },
   rl.2)

/-- `create_routes` (json_platform_loader.cpp:183-200). -/
def create_routes (fac : ZoneRec) (s : BuildState) (rts : List RouteCfg) :
    ZoneRec × BuildState :=
  rts.foldl route_step (fac, s)

/-! ## Facility construction (`load_platform` body, json_platform_loader.cpp:279-318) -/

/-- The freshly created facility zone: `add_netzone_full` for `"full"`,
`add_netzone_floyd` for `"floyd"`, and `add_netzone_full` again in the
fallback branch of the `if`/`else if`/`else` chain. -/
def facility_zone0 (dc : FacilityCfg) (r : String) : ZoneRec :=
  { name := dc.name
    kind := if r = "full" then .full else if r = "floyd" then .floyd else .full
    hosts := [], links := [], routes := [], router := none, sealed := false }

/-- One iteration of the facility loop: routing dispatch (default `full`
on an unrecognized value, fault on an absent field), the four builder
invocations in fixed order, seal.  The facility entry is written at zone
creation (partial record, as the C++ stores the pointer immediately) and
again after sealing, reflecting the mutations visible through the pointer. -/
def build_facility (s : BuildState) (dc : FacilityCfg) : Except BuildError BuildState :=
  match dc.routing with
  | none => .error .undefinedJsonAccess
  | some r =>
    let fac0 : ZoneRec := facility_zone0 dc r
    let s1 := { s with zones := regSet s.zones dc.name (some fac0) }
    let s2 := dc.storage_systems.foldl create_storage_system_zone s1
    let s3 := dc.clusters.foldl create_cluster_zone s2
    let fl := create_inter_zone_links fac0 s3 dc.links
    let fr := create_routes fl.1 fl.2 dc.routes
    let fac3 : ZoneRec := { fr.1 with sealed := true }
    .ok { fr.2 with zones := regSet fr.2.zones dc.name (some fac3) }

/-- The facility loop. -/
def build_facilities (s : BuildState) : List FacilityCfg → Except BuildError BuildState
  | [] => .ok s
  | dc :: rest =>
    match build_facility s dc with
    | .error e => .error e
    | .ok s2 => build_facilities s2 rest

/-! ## `create_filesystems` (json_platform_loader.cpp:203-262) -/

/-- The cluster-specification search of cluster-mode mounting
(json_platform_loader.cpp:230-245): scan every facility; within one
facility take the first cluster whose name matches and `break`; the outer
loop keeps going, so a match in a later facility overwrites an earlier one,
and `storage_base_name` is only overwritten when the matching cluster has a
node storage template.  Result: (prefix, suffix, count, storage_base_name),
initially `("", "", 0, "")`. -/
def find_cluster_spec (cfg : Config) (cn : String) : String × String × Nat × String :=
  cfg.facilities.foldl
    (fun acc dc =>
      match dc.clusters.find? (fun c => c.name == cn) with
      | some c =>
        (c.namePrefix, c.nameSuffix, c.count,
         match c.node.storage with | some sc => sc.name | none => acc.2.2.2)
      | none => acc)
    ("", "", 0, "")

/-- The per-node mounting loop of cluster mode: for each node index,
synthesize the hostname and per-node storage name, run the substitution
loop on the mount-point template, read the storage handle, and mount one
partition.  Fuel exhaustion of the substitution loop surfaces as
`substDiverged`. -/
def mount_cluster_nodes (fuel : Nat) (tpl : String) (pre suf sbn size : String) :
    List Nat → List PartRec × BuildState → Except BuildError (List PartRec × BuildState)
  | [], acc => .ok acc
  | i :: rest, acc =>
    let hostname := pre ++ toString i ++ suf
    let storage_name := hostname ++ "_" ++ sbn
    match substLoop hostname.data fuel tpl.data with
    | none => .error .substDiverged
    | some mchars =>
      let r := lookupStorage acc.2 storage_name
      mount_cluster_nodes fuel tpl pre suf sbn size rest
        (acc.1 ++ [{ mount := String.mk mchars, storage := r.1.map StorageRec.name
                     size := size }], r.2)

/-- One iteration of the filesystem loop: create the filesystem (with the
hard-coded `max_open_files = 100000000`), then mount in single-storage mode,
in cluster mode, or not at all, and register it against the looked-up zone. -/
def create_filesystem_entry (fuel : Nat) (cfg : Config) (s : BuildState) (fc : FsCfg) :
    Except BuildError BuildState :=
  match fc.storage_system with
  | some ssn =>
    let storage_name := ssn ++ "_storage"
    let rz := lookupZone s ssn
    let rs := lookupStorage rz.2 storage_name
    let fs : FsRec :=
      { name := fc.name, maxOpenFiles := 100000000
        partitions := [{ mount := fc.mount_point, storage := rs.1.map StorageRec.name
                         size := fc.size }]
        registrations := [(rz.1.map ZoneRec.name)] }
    .ok { rs.2 with filesystems := rs.2.filesystems ++ [fs] }
  | none =>
    match fc.cluster with
    | some cn =>
      let spec := find_cluster_spec cfg cn
      match mount_cluster_nodes fuel fc.mount_point spec.1 spec.2.1 spec.2.2.2 fc.size
          (List.range spec.2.2.1) ([], s) with
      | .error e => .error e
      | .ok pr =>
        let rz := lookupZone pr.2 cn
        let fs : FsRec :=
          { name := fc.name, maxOpenFiles := 100000000
            partitions := pr.1, registrations := [(rz.1.map ZoneRec.name)] }
        .ok { rz.2 with filesystems := rz.2.filesystems ++ [fs] }
    | none =>
      let fs : FsRec :=
        { name := fc.name, maxOpenFiles := 100000000, partitions := [], registrations := [] }
      .ok { s with filesystems := s.filesystems ++ [fs] }

/-- The filesystem loop. -/
def create_filesystems (fuel : Nat) (cfg : Config) (s : BuildState) :
    List FsCfg → Except BuildError BuildState
  | [] => .ok s
  | fc :: rest =>
    match create_filesystem_entry fuel cfg s fc with
    | .error e => .error e
    | .ok s2 => create_filesystems fuel cfg s2 rest

/-- `load_platform`: the facility loop followed by the filesystem pass.
The registry state is the file-scope globals: the caller passes the state
left by earlier invocations (at process start, `emptyState`), and nothing
ever clears it. -/
def load_platform (s : BuildState) (cfg : Config) (fuel : Nat) :
    Except BuildError BuildState :=
  match build_facilities s cfg.facilities with
  | .error e => .error e
  | .ok s2 => create_filesystems fuel cfg s2 cfg.filesystems

/-! ## A diverging substitution orbit

With hostname `hStar = "hostname\x7dhostname\x7d\x7b\x7b"` — which does *not*
contain the placeholder — and template `tStar = "\x7b\x7bhostname\x7d"`, the
substitution loop runs forever: writing `e` for the block `"hostname\x7d"`,
the reachable strings are `stateA k m = e^k ++ tStar ++ "\x7b"^m` and
`stateB k m = e^k ++ "\x7b" ++ hStar ++ "\x7b"^m`, and one loop iteration maps
`stateA k m` to `stateB k m` and `stateB k m` to `stateA (k+2) (m+2)`. -/

/-- The 9-character block `"hostname\x7d"`. -/
def eBlk : List Char := "hostname\x7d".data

/-- `k` copies of `eBlk`. -/
def eBlocks : Nat → List Char
  | 0 => []
  | k + 1 => eBlk ++ eBlocks k

/-- `m` copies of the character `'\x7b'`. -/
def lbraces (m : Nat) : List Char := List.replicate m '\x7b'

/-- The diverging hostname `"hostname\x7dhostname\x7d\x7b\x7b"`. -/
def hStar : List Char := "hostname\x7dhostname\x7d\x7b\x7b".data

/-- The diverging mount-point template `"\x7b\x7bhostname\x7d"`. -/
def tStar : List Char := "\x7b\x7bhostname\x7d".data

/-- First family of strings of the diverging orbit. -/
def stateA (k m : Nat) : List Char := eBlocks k ++ tStar ++ lbraces m

/-- Second family of strings of the diverging orbit. -/
def stateB (k m : Nat) : List Char := eBlocks k ++ '\x7b' :: hStar ++ lbraces m

/-! ## Per-node components of cluster expansion (for characterization) -/

/-- The host record created for node `i` (with its storage disk if the node
template has one); definitionally the host part of `add_cluster_node`. -/
def nodeHost (c : ClusterCfg) (i : Nat) : HostRec :=
  { name := clusterHostname c i, speed := c.node.speed, cores := c.node.cores
    disks :=
      match c.node.storage with
      | none => []
      | some sc =>
        [{ name := clusterHostname c i ++ "_" ++ sc.name ++ "_disk"
           read_bw := sc.read_bandwidth, write_bw := sc.write_bandwidth }] }

/-- The three links created for node `i`: uplink, downlink, fat-pipe
loopback. -/
def nodeLinks (c : ClusterCfg) (i : Nat) : List LinkRec :=
  [{ name := clusterHostname c i ++ "_LinkUP", bandwidth := c.node.private_link.bandwidth
     latency := c.node.private_link.latency, sharing := .shared },
   { name := clusterHostname c i ++ "_LinkDOWN", bandwidth := c.node.private_link.bandwidth
     latency := c.node.private_link.latency, sharing := .shared },
   { name := clusterHostname c i ++ "_loopback", bandwidth := c.node.loopback.bandwidth
     latency := c.node.loopback.latency, sharing := .fatpipe }]

/-- The three routes created for node `i`: asymmetric up route to the
gateway (`nullptr`), asymmetric down route from the gateway, symmetric
loopback self-route. -/
def nodeRoutes (c : ClusterCfg) (i : Nat) : List RouteRec :=
  [{ src := .host (clusterHostname c i), dst := .null
     links := [some (clusterHostname c i ++ "_LinkUP"), some (c.name ++ "_backbone")]
     symmetric := false },
   { src := .null, dst := .host (clusterHostname c i)
     links := [some (c.name ++ "_backbone"), some (clusterHostname c i ++ "_LinkDOWN")]
     symmetric := false },
   { src := .host (clusterHostname c i), dst := .host (clusterHostname c i)
     links := [some (clusterHostname c i ++ "_loopback")], symmetric := true }]

/-! ## Concrete documents used as witnesses and counterexamples -/

/-- A plain three-node cluster node template, no per-node storage. -/
def nodeCfgW : NodeCfg :=
  { speed := "1Gf", cores := 4, private_link := { bandwidth := "10Gbps", latency := "10us" }
    loopback := { bandwidth := "100Gbps", latency := "1us" }, storage := none }

/-- The spec's example cluster: name `c0`, hostnames `n0 n1 n2`. -/
def clusterC0 : ClusterCfg :=
  { name := "c0", namePrefix := "n", nameSuffix := "", count := 3
    backbone := { bandwidth := "100Gbps", latency := "50us" }, node := nodeCfgW }

/-- A valid one-facility document: the `c0` cluster, one facility-scope
link, and a route whose names are all declared before use. -/
def facilityW : FacilityCfg :=
  { name := "dc", routing := some "full", storage_systems := [], clusters := [clusterC0]
    links := [{ name := "l1", bandwidth := "10Gbps", latency := "1ms" }]
    routes := [{ src := "c0", dst := "c0", links := ["l1"] }] }

/-- Document for the C1 example scenario and the C7 witness. -/
def cfgW : Config := { facilities := [facilityW], filesystems := [] }

/-- Per-node scratch storage template (`OneDisk`). -/
def nodeStorageScratch : NodeStorageCfg :=
  { name := "scratch", stype := "OneDisk", read_bandwidth := "2GBps", write_bandwidth := "1GBps" }

/-- Node template with per-node storage. -/
def nodeCfgS : NodeCfg := { nodeCfgW with storage := some nodeStorageScratch }

/-- The `c0` cluster with per-node scratch storage. -/
def clusterC0S : ClusterCfg := { clusterC0 with node := nodeCfgS }

/-- Facility holding `clusterC0S`. -/
def facilityS : FacilityCfg :=
  { name := "dc", routing := some "full", storage_systems := [], clusters := [clusterC0S]
    links := [], routes := [] }

/-- The spec's example cluster-mode filesystem entry:
mount template `"/\x7bhostname\x7d/scratch/"` over cluster `c0`. -/
def fsScratch : FsCfg :=
  { name := "scratch_fs", mount_point := "/\x7bhostname\x7d/scratch/", size := "1TB"
    storage_system := none, cluster := some "c0" }

/-- Document for the C3 witness (the spec's mount-substitution example). -/
def cfgS : Config := { facilities := [facilityS], filesystems := [fsScratch] }

/-- A cluster whose hostname prefix is the placeholder itself, so that every
synthesized hostname contains `"\x7bhostname\x7d"`. -/
def clusterDiv : ClusterCfg :=
  { name := "cdiv", namePrefix := "\x7bhostname\x7d", nameSuffix := "", count := 1
    backbone := { bandwidth := "1Gbps", latency := "1us" }, node := nodeCfgS }

/-- Facility holding `clusterDiv`. -/
def facilityDiv : FacilityCfg :=
  { name := "dcd", routing := some "full", storage_systems := [], clusters := [clusterDiv]
    links := [], routes := [] }

/-- Cluster-mode filesystem entry whose substitution loop diverges. -/
def fsDiv : FsCfg :=
  { name := "div_fs", mount_point := "/\x7bhostname\x7d/x", size := "1TB"
    storage_system := none, cluster := some "cdiv" }

/-- Document for the C3 counterexample. -/
def cfgDiv : Config := { facilities := [facilityDiv], filesystems := [fsDiv] }

/-- The cluster-mode entry `fc` of document `cfg` fails at every fuel: the
model's rendering of a diverging substitution loop (the C++ never mounts a
partition nor registers the filesystem). -/
def FsPassAlwaysDiverges (cfg : Config) (fc : FsCfg) : Prop :=
  ∀ fuel s, create_filesystem_entry fuel cfg s fc = .error .substDiverged

/-- A facility entry with no `routing` field. -/
def facilityNoRouting : FacilityCfg :=
  { name := "dcx", routing := none, storage_systems := [], clusters := [], links := []
    routes := [] }

/-- Document for the C4 counterexample. -/
def cfgNoRouting : Config := { facilities := [facilityNoRouting], filesystems := [] }

/-- A facility whose single route names a source zone, destination zone and
link that are nowhere declared. -/
def facilityGhostRefs : FacilityCfg :=
  { name := "dcr", routing := some "full", storage_systems := [], clusters := [], links := []
    routes := [{ src := "nozone1", dst := "nozone2", links := ["nolink"] }] }

/-- Document for the C5 counterexample. -/
def cfgGhostRefs : Config := { facilities := [facilityGhostRefs], filesystems := [] }

/-- Whether `load_platform` on `cfgGhostRefs` succeeds. -/
def ghostRefsOk : Bool :=
  match load_platform emptyState cfgGhostRefs 0 with
  | .ok _ => true
  | .error _ => false

/-- The routes installed on the `dcr` facility zone by `cfgGhostRefs`. -/
def ghostRefsRoutes : List RouteRec :=
  match load_platform emptyState cfgGhostRefs 0 with
  | .ok t => match t.zones "dcr" with | some (some z) => z.routes | _ => []
  | .error _ => []

/-- Whether the ghost names were null-inserted into the registries. -/
def ghostRefsNullEntries : Bool :=
  match load_platform emptyState cfgGhostRefs 0 with
  | .ok t =>
    decide (t.zones "nozone1" = some none) && decide (t.zones "nozone2" = some none) &&
      decide (t.linkReg "nolink" = some none)
  | .error _ => false

/-- Single-facility document declaring only the zone `fA`. -/
def cfgA : Config :=
  { facilities := [{ name := "fA", routing := some "full", storage_systems := []
                     clusters := [], links := [], routes := [] }]
    filesystems := [] }

/-- Single-facility document declaring only the zone `fB`. -/
def cfgB : Config :=
  { facilities := [{ name := "fB", routing := some "full", storage_systems := []
                     clusters := [], links := [], routes := [] }]
    filesystems := [] }

/-- The `zone_map` entry for `fA` observed after compiling `cfgA` and then
`cfgB` in the same process (second pass starts from the first pass's
registries, as the C++ globals do). -/
def twoPassZoneA : Option (Option ZoneRec) :=
  match load_platform emptyState cfgA 0 with
  | .ok t1 =>
    match load_platform t1 cfgB 0 with
    | .ok t2 => t2.zones "fA"
    | .error _ => none
  | .error _ => none

/-- A storage-system specification with an unsupported type. -/
def storageCfgOdd : StorageSystemCfg :=
  { name := "st1", server_speed := "1Gf", stype := "RAID5", disk_count := 2
    read_bandwidth := "2GBps", write_bandwidth := "1GBps" }

/-- The `zone_map` entry at `k` after loading `cfg` from a fresh process
state (`none` when the compile fails). -/
def loadZone (cfg : Config) (k : String) : Option (Option ZoneRec) :=
  match load_platform emptyState cfg 0 with
  | .ok t => t.zones k
  | .error _ => none

/-- Hostnames of a looked-up zone entry (empty unless a real zone is there). -/
def zoneHostNames (o : Option (Option ZoneRec)) : List String :=
  match o with
  | some (some z) => z.hosts.map HostRec.name
  | _ => []

/-- Number of links of a looked-up zone entry. -/
def zoneLinkCount (o : Option (Option ZoneRec)) : Nat :=
  match o with
  | some (some z) => z.links.length
  | _ => 0

/-- Number of routes of a looked-up zone entry. -/
def zoneRouteCount (o : Option (Option ZoneRec)) : Nat :=
  match o with
  | some (some z) => z.routes.length
  | _ => 0

/-- Whether a looked-up entry holds a real zone. -/
def zoneBuilt (o : Option (Option ZoneRec)) : Bool :=
  match o with
  | some (some _) => true
  | _ => false

/-- Whether `load_platform` from state `s` succeeds on `cfg`. -/
def loadsOk (s : BuildState) (cfg : Config) (fuel : Nat) : Bool :=
  match load_platform s cfg fuel with
  | .ok _ => true
  | .error _ => false

/-- A facility entry whose routing value is neither `full` nor `floyd`. -/
def facilityWeird : FacilityCfg :=
  { name := "dcw", routing := some "dijkstra", storage_systems := [], clusters := []
    links := [], routes := [] }

/-- A bare zone record used as the enclosing facility in route witnesses. -/
def zrec0 : ZoneRec :=
  { name := "z0", kind := .full, hosts := [], links := [], routes := [], router := none
    sealed := false }

/-- A route entry whose source, destination and link names are undeclared. -/
def routeGhost : RouteCfg := { src := "zz1", dst := "zz2", links := ["ll"] }

/-- The filesystems list left by loading `cfgS` from a fresh state. -/
def cfgSFilesystems : List FsRec :=
  match load_platform emptyState cfgS 2 with
  | .ok t => t.filesystems
  | .error _ => []

/-- The zone record the facility pass builds for the trivial facility `fA`. -/
def facAZone : ZoneRec :=
  { name := "fA", kind := .full, hosts := [], links := [], routes := [], router := none, sealed := true }

/-- Registry-presence monotonicity: every name present in the registries of
`s` is still present in `t`.  Nothing in the compiler ever erases an entry. -/
def StatePres (s t : BuildState) : Prop :=
  ∀ k, ((s.zones k).isSome → (t.zones k).isSome) ∧
    ((s.linkReg k).isSome → (t.linkReg k).isSome) ∧
    ((s.storages k).isSome → (t.storages k).isSome)

/-- Simulation relation between a first compile pass (registry map `u`,
started from empty) and a second pass over the same document (map `v`,
started from the first pass's final map `T`): every key holds the same
entry in both passes, except keys the current pass has not touched yet,
where the second pass still sees the first pass's final (stale) entry. -/
def RegMatch {R : Type} (T u v : Reg R) : Prop :=
  ∀ k, v k = u k ∨ (u k = none ∧ v k = T k)

/-- `RegMatch` on all three registries, plus agreement of the ghost flag. -/
def SimInv (T u v : BuildState) : Prop :=
  RegMatch T.zones u.zones v.zones ∧ RegMatch T.linkReg u.linkReg v.linkReg ∧
    RegMatch T.storages u.storages v.storages ∧ v.missedLookup = u.missedLookup

/-- State after the zone-creation, storage-systems and clusters stages of
one facility (the part of `build_facility` before the link stage). -/
def facPre (dc : FacilityCfg) (r : String) (s : BuildState) : BuildState :=
  dc.clusters.foldl create_cluster_zone
    (dc.storage_systems.foldl create_storage_system_zone
      { s with zones := regSet s.zones dc.name (some (facility_zone0 dc r)) })

/-- The link and route stages of one facility, as a pair
(final facility zone record, final state). -/
def facLR (dc : FacilityCfg) (r : String) (s : BuildState) : ZoneRec × BuildState :=
  create_routes (create_inter_zone_links (facility_zone0 dc r) s dc.links).1
    (create_inter_zone_links (facility_zone0 dc r) s dc.links).2 dc.routes

/-- The ghost registry-miss flag left by `load_platform` (`true` on error). -/
def loadFlag (s : BuildState) (cfg : Config) (fuel : Nat) : Bool :=
  match load_platform s cfg fuel with
  | .ok t => t.missedLookup
  | .error _ => true

end NRTW

namespace NRTW

/-! # Theorems -/

/-! ## The substitution loop -/

/-- The index-based step (literal C++ `find`/`replace`) agrees with the
recursive restatement. -/
theorem substStep_eq_rec (h : List Char) : ∀ s, substStep h s = substStepRec h s := by
  intro s
  induction s with
  | nil => rfl
  | cons c t ih =>
    by_cases hp : hostPat.isPrefixOf (c :: t)
    · simp [substStep, substStepRec, findPat, hp]
    · rw [substStepRec, if_neg hp, ← ih]
      have hf : findPat (c :: t) = (findPat t).map (· + 1) := by
        simp only [findPat, if_neg hp]
      cases hft : findPat t with
      | none => simp [substStep, hf, hft]
      | some i =>
        simp only [substStep, hf, hft, Option.map_some']
        rw [show i + 1 + 10 = (i + 10) + 1 by omega]
        rw [List.take_succ_cons, List.drop_succ_cons]
        simp

/-- The step returns `none` exactly when the string has no occurrence of
the placeholder. -/
theorem substStepRec_none_iff (h : List Char) :
    ∀ s, substStepRec h s = none ↔ ¬ hostPat <:+: s := by
  intro s
  induction s with
  | nil =>
    simp [substStepRec, List.infix_nil]
    decide
  | cons c t ih =>
    rw [substStepRec]
    by_cases hp : hostPat.isPrefixOf (c :: t)
    · simp [hp, List.infix_cons_iff, List.isPrefixOf_iff_prefix.mp hp]
    · have hp2 : ¬ hostPat <+: (c :: t) := fun hx => hp (List.isPrefixOf_iff_prefix.mpr hx)
      simp [hp, ih, List.infix_cons_iff, hp2]

/-- A successful step splits the string at the leftmost occurrence of the
placeholder and splices the hostname over it. -/
theorem substStepRec_some_ex {h : List Char} :
    ∀ (s r : List Char), substStepRec h s = some r →
      ∃ pre post, s = pre ++ hostPat ++ post ∧ r = pre ++ h ++ post := by
  intro s
  induction s with
  | nil => intro r hc; exact absurd hc (by simp [substStepRec])
  | cons c t ih =>
    intro r hc
    rw [substStepRec] at hc
    by_cases hp : hostPat.isPrefixOf (c :: t)
    · rw [if_pos hp] at hc
      obtain ⟨u, hu⟩ := List.isPrefixOf_iff_prefix.mp hp
      refine ⟨[], u, by simpa using hu.symm, ?_⟩
      have hdrop : (c :: t).drop 10 = u := by
        rw [← hu, show (10 : Nat) = hostPat.length from rfl, List.drop_left]
      rw [hdrop] at hc
      simpa using hc.symm
    · rw [if_neg hp] at hc
      cases hmt : substStepRec h t with
      | none => rw [hmt] at hc; exact absurd hc (by simp)
      | some r2 =>
        rw [hmt] at hc
        obtain ⟨pre, post, h1, h2⟩ := ih r2 hmt
        refine ⟨c :: pre, post, by simp [h1], ?_⟩
        have hr : r = c :: r2 := by simpa using hc.symm
        simp [hr, h2]

/-- Character counting across one step. -/
theorem substStepRec_count (h : List Char) {s r : List Char}
    (hc : substStepRec h s = some r) (a : Char) :
    r.count a + hostPat.count a = s.count a + h.count a := by
  obtain ⟨pre, post, h1, h2⟩ := substStepRec_some_ex _ _ hc
  subst h1
  subst h2
  simp [List.count_append]
  ring

/-- Termination of the loop from any strictly decreasing character count:
if `a` occurs exactly once in the placeholder and not at all in the
hostname, every step removes one `a`. -/
theorem subst_terminates_of_count {h : List Char} (a : Char)
    (ha1 : hostPat.count a = 1) (ha2 : a ∉ h) (s : List Char) :
    SubstTerminates h s := by
  have aux : ∀ N s2, s2.count a = N → SubstTerminates h s2 := by
    intro N
    induction N using Nat.strong_induction_on with
    | _ N ih =>
      intro s2 hN
      cases hst : substStep h s2 with
      | none => exact ⟨0, s2, by simp [substLoop, hst]⟩
      | some s3 =>
        have hrec : substStepRec h s2 = some s3 := by rw [← substStep_eq_rec]; exact hst
        have hcount := substStepRec_count h hrec a
        have hz : h.count a = 0 := List.count_eq_zero.mpr ha2
        have hlt : s3.count a < N := by omega
        obtain ⟨n, r, hr⟩ := ih (s3.count a) hlt s3 rfl
        exact ⟨n + 1, r, by simp [substLoop, hst, hr]⟩
  exact aux (s.count a) s rfl

/-- The loop terminates whenever the hostname lacks one of the two brace
characters. -/
theorem subst_terminates (h s : List Char) (hb : '\x7b' ∉ h ∨ '\x7d' ∉ h) :
    SubstTerminates h s := by
  cases hb with
  | inl hl => exact subst_terminates_of_count '\x7b' (by decide) hl s
  | inr hr => exact subst_terminates_of_count '\x7d' (by decide) hr s

/-- When the loop exits, the guard failed on the result. -/
theorem substLoop_exit {h : List Char} :
    ∀ {n s r}, substLoop h n s = some r → substStep h r = none := by
  intro n
  induction n with
  | zero =>
    intro s r hr
    unfold substLoop at hr
    cases hst : substStep h s with
    | none => rw [hst] at hr; cases hr; exact hst
    | some s2 => rw [hst] at hr; cases hr
  | succ n ih =>
    intro s r hr
    unfold substLoop at hr
    cases hst : substStep h s with
    | none => rw [hst] at hr; cases hr; exact hst
    | some s2 => rw [hst] at hr; exact ih hr

/-- The string the loop exits with has no remaining occurrence of the
placeholder. -/
theorem subst_result_no_pattern {h : List Char} {n : Nat} {s r : List Char}
    (hr : substLoop h n s = some r) : ¬ hostPat <:+: r := by
  have h1 := substLoop_exit hr
  rw [substStep_eq_rec] at h1
  exact (substStepRec_none_iff h r).mp h1

/-- Extra fuel does not change the loop's result. -/
theorem substLoop_mono {h : List Char} :
    ∀ {n m s r}, substLoop h n s = some r → n ≤ m → substLoop h m s = some r := by
  intro n
  induction n with
  | zero =>
    intro m s r hr _
    unfold substLoop at hr
    cases hst : substStep h s with
    | none =>
      rw [hst] at hr
      cases hr
      cases m with
      | zero => simp [substLoop, hst]
      | succ m => simp [substLoop, hst]
    | some s2 => rw [hst] at hr; cases hr
  | succ n ih =>
    intro m s r hr hnm
    unfold substLoop at hr
    cases hst : substStep h s with
    | none =>
      rw [hst] at hr
      cases hr
      cases m with
      | zero => simp [substLoop, hst]
      | succ m => simp [substLoop, hst]
    | some s2 =>
      rw [hst] at hr
      cases m with
      | zero => omega
      | succ m =>
        have h2 := ih (m := m) hr (by omega)
        simp [substLoop, hst, h2]

/-- If the string contains the placeholder, the step fires, and if the
hostname also contains the placeholder the result still contains it. -/
theorem substStep_infix {h s : List Char} (hh : hostPat <:+: h)
    (hs : hostPat <:+: s) : ∃ s2, substStep h s = some s2 ∧ hostPat <:+: s2 := by
  cases hst : substStepRec h s with
  | none => exact absurd hs ((substStepRec_none_iff h s).mp hst)
  | some s2 =>
    refine ⟨s2, by rw [substStep_eq_rec]; exact hst, ?_⟩
    obtain ⟨pre, post, _, h2⟩ := substStepRec_some_ex _ _ hst
    subst h2
    exact hh.trans (List.infix_append pre h post)

/-- With the placeholder inside the hostname and at least one occurrence in
the starting string, the loop never exits. -/
theorem subst_diverges_of_infix {h s : List Char} (hh : hostPat <:+: h)
    (hs : hostPat <:+: s) : SubstDiverges h s := by
  intro n
  induction n generalizing s with
  | zero =>
    obtain ⟨s2, hst, _⟩ := substStep_infix hh hs
    simp [substLoop, hst]
  | succ n ih =>
    obtain ⟨s2, hst, h2⟩ := substStep_infix hh hs
    simp only [substLoop, hst]
    exact ih h2

/-! ## The diverging orbit of `hStar` / `tStar` -/

/-- A step skips a leading character different from `'\x7b'`. -/
theorem substStepRec_cons_ne (h : List Char) (c : Char) (t : List Char)
    (hc : c ≠ '\x7b') : substStepRec h (c :: t) = (substStepRec h t).map (c :: ·) := by
  rw [substStepRec, if_neg]
  intro hp
  obtain ⟨u, hu⟩ := List.isPrefixOf_iff_prefix.mp hp
  apply hc
  have h2 : ('\x7b' :: ("hostname\x7d".data ++ u)) = c :: t := by
    simpa [hostPat] using hu
  injection h2 with h3 _
  exact h3.symm

/-- A step skips a leading `eBlk` block (no brace opens inside it). -/
theorem substStepRec_eBlk (h s : List Char) :
    substStepRec h (eBlk ++ s) = (substStepRec h s).map (eBlk ++ ·) := by
  rw [show eBlk ++ s =
      'h' :: 'o' :: 's' :: 't' :: 'n' :: 'a' :: 'm' :: 'e' :: '\x7d' :: s from rfl]
  repeat rw [substStepRec_cons_ne h _ _ (by decide)]
  cases hs : substStepRec h s <;> simp [hs, eBlk]

/-- A step skips any block of `eBlk` copies. -/
theorem substStepRec_eBlocks (h : List Char) (k : Nat) (s : List Char) :
    substStepRec h (eBlocks k ++ s) = (substStepRec h s).map (eBlocks k ++ ·) := by
  induction k with
  | zero => simp [eBlocks]
  | succ k ih =>
    rw [show eBlocks (k + 1) = eBlk ++ eBlocks k from rfl, List.append_assoc,
      substStepRec_eBlk, ih]
    cases hs : substStepRec h s <;> simp [hs]

/-- The step on `tStar ++ L`: the leftmost occurrence starts at index 1. -/
theorem substStepRec_tStar (L : List Char) :
    substStepRec hStar (tStar ++ L) = some ('\x7b' :: (hStar ++ L)) := by
  simp [substStepRec, hostPat, tStar, List.isPrefixOf]

/-- The step on `'\x7b' :: hStar ++ L`: the occurrence starts at index 0. -/
theorem substStepRec_bStar (L : List Char) :
    substStepRec hStar (('\x7b' :: hStar) ++ L) =
      some (hStar ++ ("hostname\x7d\x7b\x7b".data ++ L)) := by
  simp [substStepRec, hostPat, hStar, List.isPrefixOf]

/-- One loop iteration maps `stateA k m` to `stateB k m`. -/
theorem substStep_stateA (k m : Nat) :
    substStep hStar (stateA k m) = some (stateB k m) := by
  rw [substStep_eq_rec, stateA, List.append_assoc, substStepRec_eBlocks,
    substStepRec_tStar]
  simp [stateB]

/-- One loop iteration maps `stateB k m` to `stateA (k+2) (m+2)`. -/
theorem substStep_stateB (k m : Nat) :
    substStep hStar (stateB k m) = some (stateA (k + 2) (m + 2)) := by
  rw [substStep_eq_rec, stateB]
  rw [show eBlocks k ++ '\x7b' :: hStar ++ lbraces m =
      eBlocks k ++ (('\x7b' :: hStar) ++ lbraces m) from by simp]
  rw [substStepRec_eBlocks, substStepRec_bStar]
  have hA : stateA (k + 2) (m + 2) =
      eBlocks k ++ (hStar ++ ("hostname\x7d\x7b\x7b".data ++ lbraces m)) := by
    have h1 : eBlocks (k + 2) = eBlocks k ++ (eBlk ++ eBlk) := by
      have comm : ∀ j, eBlocks (j + 1) = eBlocks j ++ eBlk := by
        intro j
        induction j with
        | zero => simp [eBlocks]
        | succ j ihj =>
          have ihj2 : eBlk ++ eBlocks j = eBlocks j ++ eBlk := ihj
          rw [show eBlocks (j + 1 + 1) = eBlk ++ eBlocks (j + 1) from rfl, ihj,
            ← List.append_assoc, ihj2]
      rw [comm (k + 1), comm k]
      simp
    have h2 : lbraces (m + 2) = '\x7b' :: '\x7b' :: lbraces m := by
      simp [lbraces, List.replicate_succ]
    rw [stateA, h1, h2]
    simp [hStar, tStar, eBlk]
  rw [hA]
  rfl

/-- Neither orbit family ever reaches loop exit. -/
theorem substLoop_orbit_none :
    ∀ n k m, substLoop hStar n (stateA k m) = none ∧
      substLoop hStar n (stateB k m) = none := by
  intro n
  induction n with
  | zero =>
    intro k m
    constructor
    · simp [substLoop, substStep_stateA]
    · simp [substLoop, substStep_stateB]
  | succ n ih =>
    intro k m
    constructor
    · simp only [substLoop, substStep_stateA]
      exact (ih k m).2
    · simp only [substLoop, substStep_stateB]
      exact (ih (k + 2) (m + 2)).1

/-- The loop diverges on template `tStar` with hostname `hStar`. -/
theorem subst_diverges_hStar : SubstDiverges hStar tStar := by
  intro n
  have h := (substLoop_orbit_none n 0 0).1
  simpa [stateA, eBlocks, lbraces] using h

/-- C10 (amended): for every mount-point template and every synthesized
hostname that lacks the character `'\x7b'` or lacks `'\x7d'`, the
placeholder-substitution loop terminates and its result contains no
occurrence of `"\x7bhostname\x7d"`; and whenever the hostname contains
`"\x7bhostname\x7d"` and the template contains at least one occurrence of
it, the loop does not terminate.  (The original hypothesis — the hostname
merely not containing `"\x7bhostname\x7d"` — does not suffice for
termination, see `claim_C10_counterexample`.) -/
theorem claim_C10 :
    (∀ t h, ('\x7b' ∉ h ∨ '\x7d' ∉ h) →
      ∃ n r, substLoop h n t = some r ∧ ¬ hostPat <:+: r) ∧
    (∀ t h, hostPat <:+: h → hostPat <:+: t → SubstDiverges h t) := by
  constructor
  · intro t h hb
    obtain ⟨n, r, hr⟩ := subst_terminates h t hb
    exact ⟨n, r, hr, subst_result_no_pattern hr⟩
  · intro t h hh ht
    exact subst_diverges_of_infix hh ht

/-- C10 counterexample: the hostname `hStar = "hostname\x7dhostname\x7d\x7b\x7b"`
does not contain the placeholder `"\x7bhostname\x7d"`, yet on the template
`tStar = "\x7b\x7bhostname\x7d"` the substitution loop does not terminate —
refuting the claimed termination for every hostname without the placeholder. -/
theorem claim_C10_counterexample :
    ¬ hostPat <:+: hStar ∧ ¬ SubstTerminates hStar tStar ∧
      SubstDiverges hStar tStar := by
  refine ⟨by decide, ?_, subst_diverges_hStar⟩
  rintro ⟨n, r, hr⟩
  rw [subst_diverges_hStar n] at hr
  cases hr

/-- C10 witness: the amended theorem applied to the concrete template
`"/\x7bhostname\x7d/scratch/"` with hostname `"n7"` (termination half) and
to template and hostname both `"\x7bhostname\x7d"` (divergence half). -/
theorem claim_C10_witness :
    (∃ n r, substLoop "n7".data n "/\x7bhostname\x7d/scratch/".data = some r ∧
      ¬ hostPat <:+: r) ∧ SubstDiverges hostPat hostPat :=
  ⟨claim_C10.1 "/\x7bhostname\x7d/scratch/".data "n7".data (by decide),
   claim_C10.2 hostPat hostPat (by decide) (by decide)⟩

/-! ## Cluster expansion (`create_cluster_zone`) -/

/-- The zone component of one node-loop iteration. -/
theorem add_cluster_node_fst (c : ClusterCfg) (z : ZoneRec) (st : Reg StorageRec) (i : Nat) :
    (add_cluster_node c (z, st) i).1 =
      { z with hosts := z.hosts ++ [nodeHost c i]
               links := z.links ++ nodeLinks c i
               routes := z.routes ++ nodeRoutes c i } := by
  cases hs : c.node.storage <;>
    simp [add_cluster_node, nodeHost, nodeLinks, nodeRoutes, hs]

/-- Zone contents of the whole node loop. -/
theorem cluster_fold_zone (c : ClusterCfg) :
    ∀ (l : List Nat) (z : ZoneRec) (st : Reg StorageRec),
      (l.foldl (add_cluster_node c) (z, st)).1 =
        { z with hosts := z.hosts ++ l.map (nodeHost c)
                 links := z.links ++ l.flatMap (nodeLinks c)
                 routes := z.routes ++ l.flatMap (nodeRoutes c) } := by
  intro l
  induction l with
  | nil => intro z st; simp
  | cons i rest ih =>
    intro z st
    rw [List.foldl_cons,
      show add_cluster_node c (z, st) i =
        ((add_cluster_node c (z, st) i).1, (add_cluster_node c (z, st) i).2) from rfl,
      ih, add_cluster_node_fst]
    simp

/-- The cluster zone built by `cluster_expand`: backbone link first, then
per-node hosts, links and routes in index order. -/
theorem cluster_expand_spec (c : ClusterCfg) (st : Reg StorageRec) :
    (cluster_expand c st).1 =
      { name := c.name, kind := .star
        hosts := (List.range c.count).map (nodeHost c)
        links := { name := c.name ++ "_backbone", bandwidth := c.backbone.bandwidth
                   latency := c.backbone.latency, sharing := .shared } ::
          (List.range c.count).flatMap (nodeLinks c)
        routes := (List.range c.count).flatMap (nodeRoutes c)
        router := none, sealed := false } := by
  rw [cluster_expand, cluster_fold_zone]
  simp

/-- Lists produced by a three-element-per-index expansion have length `3n`. -/
theorem flatMap_length_three {β : Type} (f : Nat → List β) (hf : ∀ i, (f i).length = 3) :
    ∀ l : List Nat, (l.flatMap f).length = 3 * l.length := by
  intro l
  induction l with
  | nil => simp
  | cons i rest ih => simp [ih, hf]; ring

/-- C1: cluster expansion with `count = N` creates exactly `N` hosts,
`3N + 1` links (up, down, loopback per node plus the backbone) and `3N`
routes; the one-facility example document with cluster
`\x7bname c0, prefix n, suffix "", count 3\x7d` yields a zone `c0` with hosts
`n0 n1 n2`, 10 links and 9 routes. -/
theorem claim_C1 :
    (∀ (c : ClusterCfg) (st : Reg StorageRec),
      (cluster_expand c st).1.hosts.length = c.count ∧
      (cluster_expand c st).1.links.length = 3 * c.count + 1 ∧
      (cluster_expand c st).1.routes.length = 3 * c.count) ∧
    zoneBuilt (loadZone cfgW "c0") = true ∧
    zoneHostNames (loadZone cfgW "c0") = ["n0", "n1", "n2"] ∧
    zoneLinkCount (loadZone cfgW "c0") = 10 ∧
    zoneRouteCount (loadZone cfgW "c0") = 9 := by
  refine ⟨?_, by decide, by decide, by decide, by decide⟩
  intro c st
  rw [cluster_expand_spec]
  refine ⟨by simp, ?_, ?_⟩
  · simp [flatMap_length_three (nodeLinks c) (fun i => rfl)]
  · simp [flatMap_length_three (nodeRoutes c) (fun i => rfl)]

/-- C2: for every node `i < count` of a cluster, the builder installs the
asymmetric route host-to-gateway over exactly (uplink, backbone), the
asymmetric gateway-to-host route over exactly (backbone, downlink), and the
symmetric self-route over exactly (loopback), and the loopback link has
fat-pipe (exclusive) sharing. -/
theorem claim_C2 (c : ClusterCfg) (st : Reg StorageRec) (i : Nat) (hi : i < c.count) :
    ({ src := .host (clusterHostname c i), dst := .null
       links := [some (clusterHostname c i ++ "_LinkUP"), some (c.name ++ "_backbone")]
       symmetric := false } : RouteRec) ∈ (cluster_expand c st).1.routes ∧
    ({ src := .null, dst := .host (clusterHostname c i)
       links := [some (c.name ++ "_backbone"), some (clusterHostname c i ++ "_LinkDOWN")]
       symmetric := false } : RouteRec) ∈ (cluster_expand c st).1.routes ∧
    ({ src := .host (clusterHostname c i), dst := .host (clusterHostname c i)
       links := [some (clusterHostname c i ++ "_loopback")]
       symmetric := true } : RouteRec) ∈ (cluster_expand c st).1.routes ∧
    ({ name := clusterHostname c i ++ "_loopback", bandwidth := c.node.loopback.bandwidth
       latency := c.node.loopback.latency
       sharing := .fatpipe } : LinkRec) ∈ (cluster_expand c st).1.links := by
  rw [cluster_expand_spec]
  have hmem : i ∈ List.range c.count := List.mem_range.mpr hi
  refine ⟨?_, ?_, ?_, ?_⟩
  · exact List.mem_flatMap.mpr ⟨i, hmem, by simp [nodeRoutes]⟩
  · exact List.mem_flatMap.mpr ⟨i, hmem, by simp [nodeRoutes]⟩
  · exact List.mem_flatMap.mpr ⟨i, hmem, by simp [nodeRoutes]⟩
  · exact List.mem_cons_of_mem _ (List.mem_flatMap.mpr ⟨i, hmem, by simp [nodeLinks]⟩)

/-- C2 witness: the three routes and the fat-pipe loopback link of node 0
of the concrete cluster `c0`. -/
theorem claim_C2_witness :
    ({ src := .host (clusterHostname clusterC0 0), dst := .null
       links := [some (clusterHostname clusterC0 0 ++ "_LinkUP"),
                 some (clusterC0.name ++ "_backbone")]
       symmetric := false } : RouteRec) ∈ (cluster_expand clusterC0 regEmpty).1.routes ∧
    ({ src := .null, dst := .host (clusterHostname clusterC0 0)
       links := [some (clusterC0.name ++ "_backbone"),
                 some (clusterHostname clusterC0 0 ++ "_LinkDOWN")]
       symmetric := false } : RouteRec) ∈ (cluster_expand clusterC0 regEmpty).1.routes ∧
    ({ src := .host (clusterHostname clusterC0 0), dst := .host (clusterHostname clusterC0 0)
       links := [some (clusterHostname clusterC0 0 ++ "_loopback")]
       symmetric := true } : RouteRec) ∈ (cluster_expand clusterC0 regEmpty).1.routes ∧
    ({ name := clusterHostname clusterC0 0 ++ "_loopback"
       bandwidth := clusterC0.node.loopback.bandwidth
       latency := clusterC0.node.loopback.latency
       sharing := .fatpipe } : LinkRec) ∈ (cluster_expand clusterC0 regEmpty).1.links :=
  claim_C2 clusterC0 regEmpty 0 (by decide)

/-! ## Registry-read helper lemmas -/

theorem regSet_self {R : Type} (m : Reg R) (k : String) (v : Option R) :
    regSet m k v k = some v := by
  simp [regSet]

theorem regSet_other {R : Type} (m : Reg R) {k q : String} (v : Option R) (h : q ≠ k) :
    regSet m k v q = m q := by
  simp [regSet, h]

theorem lookupZone_hit {s : BuildState} {k : String} {v : Option ZoneRec}
    (h : s.zones k = some v) : lookupZone s k = (v, s) := by
  simp [lookupZone, h]

theorem lookupZone_miss {s : BuildState} {k : String} (h : s.zones k = none) :
    lookupZone s k =
      (none, { s with zones := regSet s.zones k none, missedLookup := true }) := by
  simp [lookupZone, h]

theorem lookupLink_hit {s : BuildState} {k : String} {v : Option LinkRec}
    (h : s.linkReg k = some v) : lookupLink s k = (v, s) := by
  simp [lookupLink, h]

theorem lookupLink_miss {s : BuildState} {k : String} (h : s.linkReg k = none) :
    lookupLink s k =
      (none, { s with linkReg := regSet s.linkReg k none, missedLookup := true }) := by
  simp [lookupLink, h]

theorem lookupStorage_hit {s : BuildState} {k : String} {v : Option StorageRec}
    (h : s.storages k = some v) : lookupStorage s k = (v, s) := by
  simp [lookupStorage, h]

theorem lookupStorage_miss {s : BuildState} {k : String} (h : s.storages k = none) :
    lookupStorage s k =
      (none, { s with storages := regSet s.storages k none, missedLookup := true }) := by
  simp [lookupStorage, h]

/-- A zone-map entry, once present, survives any single registry read. -/
theorem lookupZone_zones_pres {s : BuildState} (k : String) {q : String} {v : Option ZoneRec}
    (h : s.zones q = some v) : (lookupZone s k).2.zones q = some v := by
  cases hk : s.zones k with
  | some w => rw [lookupZone_hit hk]; exact h
  | none =>
    rw [lookupZone_miss hk]
    by_cases hq : q = k
    · rw [hq, hk] at h; cases h
    · show regSet s.zones k none q = some v
      rw [regSet_other _ _ hq]
      exact h

/-- Registry reads never touch the other registries or the filesystems. -/
theorem lookupZone_rest (s : BuildState) (k : String) :
    (lookupZone s k).2.linkReg = s.linkReg ∧ (lookupZone s k).2.storages = s.storages ∧
      (lookupZone s k).2.filesystems = s.filesystems := by
  cases hk : s.zones k with
  | some w => rw [lookupZone_hit hk]; exact ⟨rfl, rfl, rfl⟩
  | none => rw [lookupZone_miss hk]; exact ⟨rfl, rfl, rfl⟩

theorem lookupLink_rest (s : BuildState) (k : String) :
    (lookupLink s k).2.zones = s.zones ∧ (lookupLink s k).2.storages = s.storages ∧
      (lookupLink s k).2.filesystems = s.filesystems := by
  cases hk : s.linkReg k with
  | some w => rw [lookupLink_hit hk]; exact ⟨rfl, rfl, rfl⟩
  | none => rw [lookupLink_miss hk]; exact ⟨rfl, rfl, rfl⟩

theorem lookupStorage_rest (s : BuildState) (k : String) :
    (lookupStorage s k).2.zones = s.zones ∧ (lookupStorage s k).2.linkReg = s.linkReg ∧
      (lookupStorage s k).2.filesystems = s.filesystems := by
  cases hk : s.storages k with
  | some w => rw [lookupStorage_hit hk]; exact ⟨rfl, rfl, rfl⟩
  | none => rw [lookupStorage_miss hk]; exact ⟨rfl, rfl, rfl⟩

/-- The ghost flag never goes back to `false`. -/
theorem lookupZone_flag_mono {s : BuildState} (k : String) (h : s.missedLookup = true) :
    (lookupZone s k).2.missedLookup = true := by
  cases hk : s.zones k with
  | some w => rw [lookupZone_hit hk]; exact h
  | none => rw [lookupZone_miss hk]

theorem lookupLink_flag_mono {s : BuildState} (k : String) (h : s.missedLookup = true) :
    (lookupLink s k).2.missedLookup = true := by
  cases hk : s.linkReg k with
  | some w => rw [lookupLink_hit hk]; exact h
  | none => rw [lookupLink_miss hk]

theorem lookupStorage_flag_mono {s : BuildState} (k : String) (h : s.missedLookup = true) :
    (lookupStorage s k).2.missedLookup = true := by
  cases hk : s.storages k with
  | some w => rw [lookupStorage_hit hk]; exact h
  | none => rw [lookupStorage_miss hk]

/-- The link fold of one route touches only `link_map` (and the flag). -/
theorem linkFold_rest :
    ∀ (names : List String) (acc : List (Option String) × BuildState),
      (names.foldl link_lookup_step acc).2.zones = acc.2.zones ∧
      (names.foldl link_lookup_step acc).2.storages = acc.2.storages ∧
      (names.foldl link_lookup_step acc).2.filesystems = acc.2.filesystems := by
  intro names
  induction names with
  | nil => intro acc; exact ⟨rfl, rfl, rfl⟩
  | cons n rest ih =>
    intro acc
    rw [List.foldl_cons]
    refine ⟨?_, ?_, ?_⟩
    · rw [(ih _).1]; exact (lookupLink_rest acc.2 n).1
    · rw [(ih _).2.1]; exact (lookupLink_rest acc.2 n).2.1
    · rw [(ih _).2.2]; exact (lookupLink_rest acc.2 n).2.2

/-! ## C4: routing-algorithm fallback -/

/-- The facility record built by the inter-zone-link fold: links appended
in array order, everything else untouched. -/
theorem izLinkFold_fst :
    ∀ (lks : List IZLinkCfg) (p : ZoneRec × BuildState),
      (lks.foldl iz_link_step p).1 =
        { p.1 with links := p.1.links ++ lks.map (fun lc =>
            { name := lc.name, bandwidth := lc.bandwidth, latency := lc.latency
              sharing := .shared }) } := by
  intro lks
  induction lks with
  | nil => intro p; simp
  | cons lc rest ih =>
    intro p
    rw [List.foldl_cons, ih]
    simp [iz_link_step]

/-- The route fold changes only the `routes` field of the facility record. -/
theorem routeFold_fst_fields :
    ∀ (rts : List RouteCfg) (p : ZoneRec × BuildState),
      (rts.foldl route_step p).1.kind = p.1.kind ∧
      (rts.foldl route_step p).1.name = p.1.name ∧
      (rts.foldl route_step p).1.hosts = p.1.hosts ∧
      (rts.foldl route_step p).1.links = p.1.links := by
  intro rts
  induction rts with
  | nil => intro p; exact ⟨rfl, rfl, rfl, rfl⟩
  | cons rc rest ih =>
    intro p
    rw [List.foldl_cons]
    exact ih (route_step p rc)

/-- The two facility-scope folds preserve the routing kind of the facility
record. -/
theorem build_core_kind (fac0 : ZoneRec) (s3 : BuildState) (lks : List IZLinkCfg)
    (rts : List RouteCfg) :
    (create_routes (create_inter_zone_links fac0 s3 lks).1
      (create_inter_zone_links fac0 s3 lks).2 rts).1.kind = fac0.kind := by
  rw [create_routes, (routeFold_fst_fields rts _).1, create_inter_zone_links,
    izLinkFold_fst]

/-- C4 (amended): a facility entry whose routing field is present with a
value other than `full` or `floyd` gets the `full` routing algorithm, and
no error is raised; an absent routing field is not defaulted (see the
counterexample). -/
theorem claim_C4 (s : BuildState) (dc : FacilityCfg) (r : String)
    (hr : dc.routing = some r) (h1 : r ≠ "full") (h2 : r ≠ "floyd") :
    ∃ t, build_facility s dc = .ok t ∧
      ∃ z, t.zones dc.name = some (some z) ∧ z.kind = .full ∧ z.sealed = true := by
  unfold build_facility
  rw [hr]
  refine ⟨_, rfl, _, regSet_self _ _ _, ?_, rfl⟩
  exact (build_core_kind _ _ _ _).trans
    (by simp [facility_zone0, if_neg h1, if_neg h2])

/-- C4 witness: the amended theorem at the concrete facility `dcw` with
routing value `"dijkstra"`. -/
theorem claim_C4_witness :
    ∃ t, build_facility emptyState facilityWeird = .ok t ∧
      ∃ z, t.zones facilityWeird.name = some (some z) ∧ z.kind = .full ∧
        z.sealed = true :=
  claim_C4 emptyState facilityWeird "dijkstra" rfl (by decide) (by decide)

/-- C4 counterexample: a facility entry with no routing field makes the
compile fail (the unchecked JSON access) instead of defaulting to `full`. -/
theorem claim_C4_counterexample :
    load_platform emptyState cfgNoRouting 0 = .error .undefinedJsonAccess := rfl

/-! ## C5: route references absent from the registries -/

/-- The route-link fold keeps a raised ghost flag raised. -/
theorem linkFold_flag_mono :
    ∀ (names : List String) (acc : List (Option String) × BuildState),
      acc.2.missedLookup = true →
      (names.foldl link_lookup_step acc).2.missedLookup = true := by
  intro names
  induction names with
  | nil => intro acc h; exact h
  | cons n rest ih =>
    intro acc h
    rw [List.foldl_cons]
    exact ih _ (lookupLink_flag_mono n h)

/-- The collected-handle component of one link read. -/
theorem link_lookup_step_fst (acc : List (Option String) × BuildState) (n : String) :
    (link_lookup_step acc n).1 =
      acc.1 ++ [(lookupLink acc.2 n).1.map LinkRec.name] := rfl

/-- The state component of one link read. -/
theorem link_lookup_step_snd (acc : List (Option String) × BuildState) (n : String) :
    (link_lookup_step acc n).2 = (lookupLink acc.2 n).2 := rfl

/-- A zone read of a name that is absent — or that already holds a null
entry, with the miss flag already up — returns a null handle, leaves a
null entry under the name and leaves the flag up. -/
theorem lookupZone_nullish {w : BuildState} {k : String}
    (h : w.zones k = none ∨ (w.zones k = some none ∧ w.missedLookup = true)) :
    (lookupZone w k).1 = none ∧ (lookupZone w k).2.zones k = some none ∧
      (lookupZone w k).2.missedLookup = true := by
  rcases h with h | ⟨h, hf⟩
  · rw [lookupZone_miss h]
    exact ⟨rfl, regSet_self _ _ _, rfl⟩
  · rw [lookupZone_hit h]
    exact ⟨rfl, h, hf⟩

/-- Once a null handle is in the collected list it stays: the link fold
only appends. -/
theorem linkFold_mem_none :
    ∀ (names : List String) (acc : List (Option String) × BuildState),
      none ∈ acc.1 → none ∈ (names.foldl link_lookup_step acc).1 := by
  intro names
  induction names with
  | nil => intro acc h; exact h
  | cons n rest ih =>
    intro acc h
    rw [List.foldl_cons]
    refine ih _ ?_
    rw [link_lookup_step_fst]
    exact List.mem_append_left _ h

/-- A null link-registry entry survives the link fold: a read of the same
name hits it and changes nothing, a read of another name sets only that
other name. -/
theorem linkFold_nullEntry :
    ∀ (names : List String) (acc : List (Option String) × BuildState) (ln : String),
      acc.2.linkReg ln = some none →
      (names.foldl link_lookup_step acc).2.linkReg ln = some none := by
  intro names
  induction names with
  | nil => intro acc ln h; exact h
  | cons n rest ih =>
    intro acc ln h
    rw [List.foldl_cons]
    refine ih _ ln ?_
    rw [link_lookup_step_snd]
    cases hk : acc.2.linkReg n with
    | some w => rw [lookupLink_hit hk]; exact h
    | none =>
      rw [lookupLink_miss hk]
      show regSet acc.2.linkReg n none ln = some none
      by_cases he : ln = n
      · rw [he, regSet_self]
      · rw [regSet_other _ _ he]; exact h

/-- Reading a link name that is absent (or already null, flag up) during
the link fold puts a null handle into the collected list, leaves a null
entry under the name, and raises the miss flag. -/
theorem linkFold_null :
    ∀ (names : List String) (acc : List (Option String) × BuildState) (ln : String),
      ln ∈ names →
      (acc.2.linkReg ln = none ∨
        (acc.2.linkReg ln = some none ∧ acc.2.missedLookup = true)) →
      none ∈ (names.foldl link_lookup_step acc).1 ∧
      (names.foldl link_lookup_step acc).2.linkReg ln = some none ∧
      (names.foldl link_lookup_step acc).2.missedLookup = true := by
  intro names
  induction names with
  | nil => intro acc ln hm _; exact absurd hm (by simp)
  | cons n rest ih =>
    intro acc ln hm hinv
    rw [List.foldl_cons]
    rcases List.mem_cons.mp hm with rfl | hm2
    · rcases hinv with h | ⟨h, hf⟩
      · have hstep : link_lookup_step acc ln = (acc.1 ++ [none],
            { acc.2 with linkReg := regSet acc.2.linkReg ln none
                         missedLookup := true }) := by
          unfold link_lookup_step
          rw [lookupLink_miss h]
          exact rfl
        rw [hstep]
        exact ⟨linkFold_mem_none rest _ (by simp),
               linkFold_nullEntry rest _ ln (regSet_self _ _ _),
               linkFold_flag_mono rest _ rfl⟩
      · have hstep : link_lookup_step acc ln = (acc.1 ++ [none], acc.2) := by
          unfold link_lookup_step
          rw [lookupLink_hit h]
          exact rfl
        rw [hstep]
        exact ⟨linkFold_mem_none rest _ (by simp),
               linkFold_nullEntry rest _ ln h,
               linkFold_flag_mono rest _ hf⟩
    · refine ih _ ln hm2 ?_
      rw [link_lookup_step_snd]
      rcases hinv with h | ⟨h, hf⟩
      · by_cases he : ln = n
        · subst he
          rw [lookupLink_miss h]
          exact Or.inr ⟨regSet_self _ _ _, rfl⟩
        · cases hk : acc.2.linkReg n with
          | some w => rw [lookupLink_hit hk]; exact Or.inl h
          | none =>
            rw [lookupLink_miss hk]
            refine Or.inl ?_
            show regSet acc.2.linkReg n none ln = none
            rw [regSet_other _ _ he]
            exact h
      · refine Or.inr ⟨?_, lookupLink_flag_mono n hf⟩
        cases hk : acc.2.linkReg n with
        | some w => rw [lookupLink_hit hk]; exact h
        | none =>
          rw [lookupLink_miss hk]
          show regSet acc.2.linkReg n none ln = some none
          by_cases he : ln = n
          · rw [he, regSet_self]
          · rw [regSet_other _ _ he]; exact h

/-- C5 (amended): a route entry naming an undeclared source zone,
undeclared destination zone, or undeclared link raises no error:
`operator[]` default-inserts a null entry under the missing name, and the
route is still installed on the facility zone with a null handle in the
corresponding place — a null source endpoint, a null destination endpoint,
or a null entry in the link-handle list — and the compile continues. -/
theorem claim_C5 :
    (∀ (fac : ZoneRec) (s : BuildState) (rc : RouteCfg), s.zones rc.src = none →
      ∃ dstE lks t,
        create_routes fac s [rc] =
          ({ fac with routes := fac.routes ++
              [{ src := .null, dst := dstE, links := lks, symmetric := true }] }, t) ∧
        t.zones rc.src = some none ∧ t.missedLookup = true) ∧
    (∀ (fac : ZoneRec) (s : BuildState) (rc : RouteCfg), s.zones rc.dst = none →
      ∃ srcE lks t,
        create_routes fac s [rc] =
          ({ fac with routes := fac.routes ++
              [{ src := srcE, dst := .null, links := lks, symmetric := true }] }, t) ∧
        t.zones rc.dst = some none ∧ t.missedLookup = true) ∧
    (∀ (fac : ZoneRec) (s : BuildState) (rc : RouteCfg) (ln : String),
      ln ∈ rc.links → s.linkReg ln = none →
      ∃ srcE dstE lks t,
        create_routes fac s [rc] =
          ({ fac with routes := fac.routes ++
              [{ src := srcE, dst := dstE, links := lks, symmetric := true }] }, t) ∧
        none ∈ lks ∧ t.linkReg ln = some none ∧ t.missedLookup = true) := by
  refine ⟨?_, ?_, ?_⟩
  · intro fac s rc hsrc
    rw [create_routes, List.foldl_cons, List.foldl_nil, route_step]
    rw [lookupZone_miss hsrc]
    refine ⟨_, _, _, rfl, ?_, ?_⟩
    · rw [collectRouteLinks, (linkFold_rest rc.links _).1]
      exact lookupZone_zones_pres rc.dst (regSet_self _ _ _)
    · rw [collectRouteLinks]
      exact linkFold_flag_mono rc.links _ (lookupZone_flag_mono rc.dst rfl)
  · intro fac s rc hdst
    have h1 : (lookupZone s rc.src).2.zones rc.dst = none ∨
        ((lookupZone s rc.src).2.zones rc.dst = some none ∧
          (lookupZone s rc.src).2.missedLookup = true) := by
      cases hs : s.zones rc.src with
      | some x => rw [lookupZone_hit hs]; exact Or.inl hdst
      | none =>
        rw [lookupZone_miss hs]
        by_cases he : rc.dst = rc.src
        · refine Or.inr ⟨?_, rfl⟩
          show regSet s.zones rc.src none rc.dst = some none
          rw [he, regSet_self]
        · refine Or.inl ?_
          show regSet s.zones rc.src none rc.dst = none
          rw [regSet_other _ _ he]
          exact hdst
    obtain ⟨hd1, hd2, hd3⟩ := lookupZone_nullish h1
    rw [create_routes, List.foldl_cons, List.foldl_nil, route_step]
    simp only [hd1]
    refine ⟨_, _, _, rfl, ?_, ?_⟩
    · rw [collectRouteLinks, (linkFold_rest rc.links _).1]
      exact hd2
    · rw [collectRouteLinks]
      exact linkFold_flag_mono rc.links _ hd3
  · intro fac s rc ln hmem habs
    have hw : (lookupZone (lookupZone s rc.src).2 rc.dst).2.linkReg ln = none := by
      rw [(lookupZone_rest _ rc.dst).1, (lookupZone_rest s rc.src).1]
      exact habs
    obtain ⟨hm1, hm2, hm3⟩ := linkFold_null rc.links ([], _) ln hmem (Or.inl hw)
    rw [create_routes, List.foldl_cons, List.foldl_nil, route_step]
    refine ⟨_, _, _, _, rfl, ?_, ?_, ?_⟩
    · rw [collectRouteLinks]; exact hm1
    · rw [collectRouteLinks]; exact hm2
    · rw [collectRouteLinks]; exact hm3

/-- C5 witness: the three halves of the amended theorem at the concrete
route `routeGhost` — source `zz1`, destination `zz2`, link `ll`, all
undeclared — from the empty registry state. -/
theorem claim_C5_witness :
    (∃ dstE lks t,
      create_routes zrec0 emptyState [routeGhost] =
        ({ zrec0 with routes := zrec0.routes ++
            [{ src := .null, dst := dstE, links := lks, symmetric := true }] }, t) ∧
      t.zones routeGhost.src = some none ∧ t.missedLookup = true) ∧
    (∃ srcE lks t,
      create_routes zrec0 emptyState [routeGhost] =
        ({ zrec0 with routes := zrec0.routes ++
            [{ src := srcE, dst := .null, links := lks, symmetric := true }] }, t) ∧
      t.zones routeGhost.dst = some none ∧ t.missedLookup = true) ∧
    (∃ srcE dstE lks t,
      create_routes zrec0 emptyState [routeGhost] =
        ({ zrec0 with routes := zrec0.routes ++
            [{ src := srcE, dst := dstE, links := lks, symmetric := true }] }, t) ∧
      none ∈ lks ∧ t.linkReg "ll" = some none ∧ t.missedLookup = true) :=
  ⟨claim_C5.1 zrec0 emptyState routeGhost rfl,
   claim_C5.2.1 zrec0 emptyState routeGhost rfl,
   claim_C5.2.2 zrec0 emptyState routeGhost "ll" (by decide) rfl⟩

/-- C5 counterexample: compiling the document whose only route names the
undeclared `nozone1`, `nozone2` and `nolink` succeeds — no
`UnknownReference` failure — and installs on the facility zone a route with
null source, destination and link handles, leaving null entries in the
registries. -/
theorem claim_C5_counterexample :
    ghostRefsOk = true ∧
    ghostRefsRoutes = [{ src := .null, dst := .null, links := [none], symmetric := true }] ∧
    ghostRefsNullEntries = true := by
  refine ⟨rfl, by decide, rfl⟩

/-! ## C6: unsupported storage-system type -/

/-- C6: a storage-system specification whose type is neither `OneDisk` nor
`JBOD` registers no storage device (the storage registry is untouched, so
the entry stays absent) and the compile continues: the storage zone and its
server host (with no disks) are still created and the zone is sealed. -/
theorem claim_C6 (s : BuildState) (sc : StorageSystemCfg)
    (h1 : sc.stype ≠ "OneDisk") (h2 : sc.stype ≠ "JBOD") :
    (create_storage_system_zone s sc).storages = s.storages ∧
    (s.storages (sc.name ++ "_storage") = none →
      (create_storage_system_zone s sc).storages (sc.name ++ "_storage") = none) ∧
    (create_storage_system_zone s sc).zones sc.name =
      some (some { name := sc.name, kind := .emptyZone
                   hosts := [{ name := sc.name ++ "_server", speed := sc.server_speed
                               cores := 1, disks := [] }]
                   links := [], routes := [], router := none, sealed := true }) := by
  unfold create_storage_system_zone
  simp only [if_neg h2, if_neg h1]
  refine ⟨?_, ?_, ?_⟩
  · trivial
  · exact fun h => h
  · exact regSet_self _ _ _

/-! ## C9: the hard-coded max-open-files constant -/

theorem storageFold_filesystems :
    ∀ (scs : List StorageSystemCfg) (s : BuildState),
      (scs.foldl create_storage_system_zone s).filesystems = s.filesystems := by
  intro scs
  induction scs with
  | nil => intro s; rfl
  | cons sc rest ih => intro s; rw [List.foldl_cons, ih]; exact rfl

theorem clusterFold_filesystems :
    ∀ (cs : List ClusterCfg) (s : BuildState),
      (cs.foldl create_cluster_zone s).filesystems = s.filesystems := by
  intro cs
  induction cs with
  | nil => intro s; rfl
  | cons c rest ih => intro s; rw [List.foldl_cons, ih]; exact rfl

theorem izLinkFold_snd_filesystems :
    ∀ (lks : List IZLinkCfg) (p : ZoneRec × BuildState),
      (lks.foldl iz_link_step p).2.filesystems = p.2.filesystems := by
  intro lks
  induction lks with
  | nil => intro p; rfl
  | cons lc rest ih => intro p; rw [List.foldl_cons, ih]; exact rfl

theorem route_step_snd_filesystems (p : ZoneRec × BuildState) (rc : RouteCfg) :
    (route_step p rc).2.filesystems = p.2.filesystems := by
  show (collectRouteLinks (lookupZone (lookupZone p.2 rc.src).2 rc.dst).2 rc.links).2.filesystems
    = p.2.filesystems
  rw [collectRouteLinks, (linkFold_rest _ _).2.2,
    (lookupZone_rest _ _).2.2, (lookupZone_rest _ _).2.2]

theorem routeFold_snd_filesystems :
    ∀ (rts : List RouteCfg) (p : ZoneRec × BuildState),
      (rts.foldl route_step p).2.filesystems = p.2.filesystems := by
  intro rts
  induction rts with
  | nil => intro p; rfl
  | cons rc rest ih =>
    intro p
    rw [List.foldl_cons, ih, route_step_snd_filesystems]

/-- The facility pass never touches the filesystems list. -/
theorem build_facility_filesystems {s : BuildState} {dc : FacilityCfg} {t : BuildState}
    (h : build_facility s dc = .ok t) : t.filesystems = s.filesystems := by
  unfold build_facility at h
  cases hr : dc.routing with
  | none => rw [hr] at h; cases h
  | some r =>
    rw [hr] at h
    injection h with h2
    subst h2
    simp only [create_routes, routeFold_snd_filesystems, create_inter_zone_links,
      izLinkFold_snd_filesystems, storageFold_filesystems, clusterFold_filesystems]

theorem build_facilities_filesystems :
    ∀ (dcs : List FacilityCfg) (s t : BuildState),
      build_facilities s dcs = .ok t → t.filesystems = s.filesystems := by
  intro dcs
  induction dcs with
  | nil => intro s t h; cases h; rfl
  | cons dc rest ih =>
    intro s t h
    unfold build_facilities at h
    cases hb : build_facility s dc with
    | error e => rw [hb] at h; cases h
    | ok s2 => rw [hb] at h; rw [ih s2 t h, build_facility_filesystems hb]

/-- The per-node mount loop never touches the filesystems list. -/
theorem mountNodes_filesystems :
    ∀ (l : List Nat) (fuel : Nat) (tpl pre suf sbn size : String)
      (acc : List PartRec × BuildState) (pr : List PartRec × BuildState),
      mount_cluster_nodes fuel tpl pre suf sbn size l acc = .ok pr →
      pr.2.filesystems = acc.2.filesystems := by
  intro l
  induction l with
  | nil => intro fuel tpl pre suf sbn size acc pr h; cases h; rfl
  | cons i rest ih =>
    intro fuel tpl pre suf sbn size acc pr h
    simp only [mount_cluster_nodes] at h
    cases hsub : substLoop (pre ++ toString i ++ suf).data fuel tpl.data with
    | none => rw [hsub] at h; cases h
    | some mchars =>
      rw [hsub] at h
      rw [ih fuel tpl pre suf sbn size _ pr h]
      exact (lookupStorage_rest _ _).2.2

/-- Every filesystem present after one filesystem-pass entry was either
already there or was created by it with the hard-coded constant. -/
theorem create_fs_entry_filesystems {fuel : Nat} {cfg : Config} {s : BuildState}
    {fc : FsCfg} {t : BuildState} (h : create_filesystem_entry fuel cfg s fc = .ok t) :
    ∀ fs ∈ t.filesystems, fs ∈ s.filesystems ∨ fs.maxOpenFiles = 100000000 := by
  intro fs hm
  cases hss : fc.storage_system with
  | some ssn =>
    simp only [create_filesystem_entry, hss, Except.ok.injEq] at h
    subst h
    simp only [List.mem_append, List.mem_singleton] at hm
    rcases hm with hm | hm
    · left
      rw [(lookupStorage_rest _ _).2.2, (lookupZone_rest _ _).2.2] at hm
      exact hm
    · right
      rw [hm]
  | none =>
    cases hc : fc.cluster with
    | some cn =>
      simp only [create_filesystem_entry, hss, hc] at h
      cases hmn : mount_cluster_nodes fuel fc.mount_point (find_cluster_spec cfg cn).1
          (find_cluster_spec cfg cn).2.1 (find_cluster_spec cfg cn).2.2.2 fc.size
          (List.range (find_cluster_spec cfg cn).2.2.1) ([], s) with
      | error e => rw [hmn] at h; cases h
      | ok pr =>
        rw [hmn] at h
        simp only [Except.ok.injEq] at h
        subst h
        simp only [List.mem_append, List.mem_singleton] at hm
        rcases hm with hm | hm
        · left
          rw [(lookupZone_rest _ _).2.2] at hm
          rw [show pr.2.filesystems = (([], s) : List PartRec × BuildState).2.filesystems
              from mountNodes_filesystems _ _ _ _ _ _ _ _ _ hmn] at hm
          exact hm
        · right
          rw [hm]
    | none =>
      simp only [create_filesystem_entry, hss, hc, Except.ok.injEq] at h
      subst h
      simp only [List.mem_append, List.mem_singleton] at hm
      rcases hm with hm | hm
      · exact .inl hm
      · right
        rw [hm]

theorem create_filesystems_all :
    ∀ (fss : List FsCfg) (fuel : Nat) (cfg : Config) (s t : BuildState),
      create_filesystems fuel cfg s fss = .ok t →
      ∀ fs ∈ t.filesystems, fs ∈ s.filesystems ∨ fs.maxOpenFiles = 100000000 := by
  intro fss
  induction fss with
  | nil => intro fuel cfg s t h fs hm; cases h; exact .inl hm
  | cons fc rest ih =>
    intro fuel cfg s t h fs hm
    unfold create_filesystems at h
    cases he : create_filesystem_entry fuel cfg s fc with
    | error e => rw [he] at h; cases h
    | ok s2 =>
      rw [he] at h
      rcases ih fuel cfg s2 t h fs hm with h2 | h2
      · rcases create_fs_entry_filesystems he fs h2 with h3 | h3
        · exact .inl h3
        · exact .inr h3
      · exact .inr h2

/-- C9: every filesystem created by the filesystem pass of any document has
its max-open-files limit equal to the constant `100000000`; the limit is not
configurable and identical across all filesystems. -/
theorem claim_C9 (cfg : Config) (fuel : Nat) (t : BuildState)
    (h : load_platform emptyState cfg fuel = .ok t) :
    ∀ fs ∈ t.filesystems, fs.maxOpenFiles = 100000000 := by
  intro fs hm
  unfold load_platform at h
  cases hb : build_facilities emptyState cfg.facilities with
  | error e => rw [hb] at h; cases h
  | ok s2 =>
    rw [hb] at h
    rcases create_filesystems_all cfg.filesystems fuel cfg s2 t h fs hm with h2 | h2
    · rw [build_facilities_filesystems cfg.facilities emptyState s2 hb] at h2
      cases h2
    · exact h2

/-- C9 witness: the theorem on the concrete document `cfgS` (which creates
one filesystem). -/
theorem claim_C9_witness :
    ∃ t, load_platform emptyState cfgS 2 = .ok t ∧
      ∀ fs ∈ t.filesystems, fs.maxOpenFiles = 100000000 := by
  cases h : load_platform emptyState cfgS 2 with
  | ok t => exact ⟨t, rfl, claim_C9 cfgS 2 t h⟩
  | error e =>
    have h2 : loadsOk emptyState cfgS 2 = true := by decide
    unfold loadsOk at h2
    rw [h] at h2
    simp at h2

/-! ## C8: registry persistence across compile passes -/

theorem statePres_refl (s : BuildState) : StatePres s s :=
  fun _ => ⟨id, id, id⟩

theorem statePres_trans {a b c : BuildState} (h1 : StatePres a b) (h2 : StatePres b c) :
    StatePres a c :=
  fun k => ⟨fun h => ((h2 k).1 ((h1 k).1 h)), fun h => ((h2 k).2.1 ((h1 k).2.1 h)),
    fun h => ((h2 k).2.2 ((h1 k).2.2 h))⟩

theorem regSet_isSome {R : Type} (m : Reg R) (k : String) (v : Option R) (q : String)
    (h : (m q).isSome) : ((regSet m k v) q).isSome := by
  by_cases hq : q = k
  · rw [hq, regSet_self]; rfl
  · rw [regSet_other _ _ hq]; exact h

theorem setZone_pres (s : BuildState) (k : String) (v : Option ZoneRec) :
    StatePres s { s with zones := regSet s.zones k v } :=
  fun q => ⟨regSet_isSome _ _ _ q, id, id⟩

theorem setFs_pres (s : BuildState) (l : List FsRec) :
    StatePres s { s with filesystems := l } :=
  fun _ => ⟨id, id, id⟩

theorem lookupZone_pres (s : BuildState) (k : String) : StatePres s (lookupZone s k).2 := by
  cases hk : s.zones k with
  | some w => rw [lookupZone_hit hk]; exact statePres_refl s
  | none =>
    rw [lookupZone_miss hk]
    exact fun q => ⟨regSet_isSome _ _ _ q, id, id⟩

theorem lookupLink_pres (s : BuildState) (k : String) : StatePres s (lookupLink s k).2 := by
  cases hk : s.linkReg k with
  | some w => rw [lookupLink_hit hk]; exact statePres_refl s
  | none =>
    rw [lookupLink_miss hk]
    exact fun q => ⟨id, regSet_isSome _ _ _ q, id⟩

theorem lookupStorage_pres (s : BuildState) (k : String) :
    StatePres s (lookupStorage s k).2 := by
  cases hk : s.storages k with
  | some w => rw [lookupStorage_hit hk]; exact statePres_refl s
  | none =>
    rw [lookupStorage_miss hk]
    exact fun q => ⟨id, id, regSet_isSome _ _ _ q⟩

theorem create_storage_system_zone_pres (s : BuildState) (sc : StorageSystemCfg) :
    StatePres s (create_storage_system_zone s sc) := by
  intro q
  unfold create_storage_system_zone
  refine ⟨?_, ?_, ?_⟩
  · exact regSet_isSome _ _ _ q
  · exact id
  · split
    · exact regSet_isSome _ _ _ q
    · split
      · exact regSet_isSome _ _ _ q
      · exact id

theorem add_cluster_node_storages_isSome (c : ClusterCfg) (p : ZoneRec × Reg StorageRec)
    (i : Nat) (q : String) (h : (p.2 q).isSome) :
    (((add_cluster_node c p i).2) q).isSome := by
  unfold add_cluster_node
  cases hs : c.node.storage with
  | none => exact h
  | some sc =>
    simp only
    split
    · exact regSet_isSome _ _ _ q h
    · split
      · exact regSet_isSome _ _ _ q h
      · exact h

theorem cluster_fold_storages_isSome (c : ClusterCfg) :
    ∀ (l : List Nat) (p : ZoneRec × Reg StorageRec) (q : String),
      (p.2 q).isSome → ((l.foldl (add_cluster_node c) p).2 q).isSome := by
  intro l
  induction l with
  | nil => intro p q h; exact h
  | cons i rest ih =>
    intro p q h
    rw [List.foldl_cons]
    exact ih _ q (add_cluster_node_storages_isSome c p i q h)

theorem create_cluster_zone_pres (s : BuildState) (c : ClusterCfg) :
    StatePres s (create_cluster_zone s c) := by
  intro q
  refine ⟨?_, ?_, ?_⟩
  · exact regSet_isSome _ _ _ q
  · exact id
  · exact cluster_fold_storages_isSome c (List.range c.count) (_, s.storages) q

theorem izLinkFold_pres :
    ∀ (lks : List IZLinkCfg) (p : ZoneRec × BuildState),
      StatePres p.2 (lks.foldl iz_link_step p).2 := by
  intro lks
  induction lks with
  | nil => intro p; exact statePres_refl _
  | cons lc rest ih =>
    intro p
    rw [List.foldl_cons]
    refine statePres_trans ?_ (ih (iz_link_step p lc))
    exact fun q => ⟨id, regSet_isSome _ _ _ q, id⟩

theorem linkFold_pres :
    ∀ (names : List String) (acc : List (Option String) × BuildState),
      StatePres acc.2 (names.foldl link_lookup_step acc).2 := by
  intro names
  induction names with
  | nil => intro acc; exact statePres_refl _
  | cons n rest ih =>
    intro acc
    rw [List.foldl_cons]
    exact statePres_trans (lookupLink_pres acc.2 n) (ih (link_lookup_step acc n))

theorem route_step_pres (p : ZoneRec × BuildState) (rc : RouteCfg) :
    StatePres p.2 (route_step p rc).2 := by
  refine statePres_trans (lookupZone_pres p.2 rc.src) ?_
  refine statePres_trans (lookupZone_pres _ rc.dst) ?_
  exact linkFold_pres rc.links ([], _)

theorem routeFold_pres :
    ∀ (rts : List RouteCfg) (p : ZoneRec × BuildState),
      StatePres p.2 (rts.foldl route_step p).2 := by
  intro rts
  induction rts with
  | nil => intro p; exact statePres_refl _
  | cons rc rest ih =>
    intro p
    rw [List.foldl_cons]
    exact statePres_trans (route_step_pres p rc) (ih (route_step p rc))

theorem create_inter_zone_links_pres (fac : ZoneRec) (s : BuildState)
    (lks : List IZLinkCfg) : StatePres s (create_inter_zone_links fac s lks).2 :=
  izLinkFold_pres lks (fac, s)

theorem create_routes_pres (fac : ZoneRec) (s : BuildState) (rts : List RouteCfg) :
    StatePres s (create_routes fac s rts).2 :=
  routeFold_pres rts (fac, s)

theorem storageFold_pres :
    ∀ (scs : List StorageSystemCfg) (s : BuildState),
      StatePres s (scs.foldl create_storage_system_zone s) := by
  intro scs
  induction scs with
  | nil => intro s; exact statePres_refl s
  | cons sc rest ih =>
    intro s
    rw [List.foldl_cons]
    exact statePres_trans (create_storage_system_zone_pres s sc) (ih _)

theorem clusterFold_pres :
    ∀ (cs : List ClusterCfg) (s : BuildState),
      StatePres s (cs.foldl create_cluster_zone s) := by
  intro cs
  induction cs with
  | nil => intro s; exact statePres_refl s
  | cons c rest ih =>
    intro s
    rw [List.foldl_cons]
    exact statePres_trans (create_cluster_zone_pres s c) (ih _)

theorem build_facility_pres {s t : BuildState} {dc : FacilityCfg}
    (h : build_facility s dc = .ok t) : StatePres s t := by
  unfold build_facility at h
  cases hr : dc.routing with
  | none => rw [hr] at h; cases h
  | some r =>
    rw [hr] at h
    injection h with h2
    subst h2
    exact statePres_trans (setZone_pres s dc.name (some (facility_zone0 dc r)))
      (statePres_trans (storageFold_pres dc.storage_systems _)
        (statePres_trans (clusterFold_pres dc.clusters _)
          (statePres_trans (create_inter_zone_links_pres (facility_zone0 dc r) _ dc.links)
            (statePres_trans (create_routes_pres _ _ dc.routes)
              (setZone_pres _ dc.name _)))))

theorem build_facilities_pres :
    ∀ (dcs : List FacilityCfg) (s t : BuildState),
      build_facilities s dcs = .ok t → StatePres s t := by
  intro dcs
  induction dcs with
  | nil => intro s t h; cases h; exact statePres_refl s
  | cons dc rest ih =>
    intro s t h
    unfold build_facilities at h
    cases hb : build_facility s dc with
    | error e => rw [hb] at h; cases h
    | ok s2 =>
      rw [hb] at h
      exact statePres_trans (build_facility_pres hb) (ih s2 t h)

theorem mountNodes_pres :
    ∀ (l : List Nat) (fuel : Nat) (tpl pre suf sbn size : String)
      (acc pr : List PartRec × BuildState),
      mount_cluster_nodes fuel tpl pre suf sbn size l acc = .ok pr →
      StatePres acc.2 pr.2 := by
  intro l
  induction l with
  | nil => intro fuel tpl pre suf sbn size acc pr h; cases h; exact statePres_refl _
  | cons i rest ih =>
    intro fuel tpl pre suf sbn size acc pr h
    simp only [mount_cluster_nodes] at h
    cases hsub : substLoop (pre ++ toString i ++ suf).data fuel tpl.data with
    | none => rw [hsub] at h; cases h
    | some mchars =>
      rw [hsub] at h
      exact statePres_trans (lookupStorage_pres acc.2 _)
        (ih fuel tpl pre suf sbn size _ pr h)

theorem create_fs_entry_pres {fuel : Nat} {cfg : Config} {s : BuildState} {fc : FsCfg}
    {t : BuildState} (h : create_filesystem_entry fuel cfg s fc = .ok t) :
    StatePres s t := by
  cases hss : fc.storage_system with
  | some ssn =>
    simp only [create_filesystem_entry, hss, Except.ok.injEq] at h
    subst h
    refine statePres_trans (lookupZone_pres s ssn) ?_
    refine statePres_trans (lookupStorage_pres _ (ssn ++ "_storage")) ?_
    exact setFs_pres _ _
  | none =>
    cases hc : fc.cluster with
    | some cn =>
      simp only [create_filesystem_entry, hss, hc] at h
      cases hmn : mount_cluster_nodes fuel fc.mount_point (find_cluster_spec cfg cn).1
          (find_cluster_spec cfg cn).2.1 (find_cluster_spec cfg cn).2.2.2 fc.size
          (List.range (find_cluster_spec cfg cn).2.2.1) ([], s) with
      | error e => rw [hmn] at h; cases h
      | ok pr =>
        rw [hmn] at h
        simp only [Except.ok.injEq] at h
        subst h
        refine statePres_trans (mountNodes_pres _ _ _ _ _ _ _ _ _ hmn) ?_
        refine statePres_trans (lookupZone_pres _ cn) ?_
        exact setFs_pres _ _
    | none =>
      simp only [create_filesystem_entry, hss, hc, Except.ok.injEq] at h
      subst h
      exact setFs_pres _ _

theorem create_filesystems_pres :
    ∀ (fss : List FsCfg) (fuel : Nat) (cfg : Config) (s t : BuildState),
      create_filesystems fuel cfg s fss = .ok t → StatePres s t := by
  intro fss
  induction fss with
  | nil => intro fuel cfg s t h; cases h; exact statePres_refl _
  | cons fc rest ih =>
    intro fuel cfg s t h
    unfold create_filesystems at h
    cases he : create_filesystem_entry fuel cfg s fc with
    | error e => rw [he] at h; cases h
    | ok s2 =>
      rw [he] at h
      exact statePres_trans (create_fs_entry_pres he) (ih fuel cfg s2 t h)

/-- C8 (amended): the three registries are process-lifetime globals that are
never cleared: every entry present when a compile pass starts is still
present when it ends, so entries from one pass remain observable in later
passes of the same process. -/
theorem claim_C8 (s : BuildState) (cfg : Config) (fuel : Nat) (t : BuildState)
    (h : load_platform s cfg fuel = .ok t) : StatePres s t := by
  unfold load_platform at h
  cases hb : build_facilities s cfg.facilities with
  | error e => rw [hb] at h; cases h
  | ok s2 =>
    rw [hb] at h
    exact statePres_trans (build_facilities_pres cfg.facilities s s2 hb)
      (create_filesystems_pres cfg.filesystems fuel cfg s2 t h)

/-- C8 witness: the persistence theorem applied to the second pass (`cfgB`)
started from the state the first pass (`cfgA`) left behind. -/
theorem claim_C8_witness :
    ∃ t1 t2, load_platform emptyState cfgA 0 = .ok t1 ∧
      load_platform t1 cfgB 0 = .ok t2 ∧ StatePres t1 t2 := by
  cases h1 : load_platform emptyState cfgA 0 with
  | ok t1 =>
    cases h2 : load_platform t1 cfgB 0 with
    | ok t2 => exact ⟨t1, t2, rfl, h2, claim_C8 t1 cfgB 0 t2 h2⟩
    | error e =>
      exfalso
      have ht : twoPassZoneA = some (some facAZone) := by decide
      unfold twoPassZoneA at ht
      rw [h1] at ht
      simp [h2] at ht
  | error e =>
    have h3 : loadsOk emptyState cfgA 0 = true := by decide
    unfold loadsOk at h3
    rw [h1] at h3
    simp at h3

/-- C8 counterexample: after compiling `cfgA` (declaring only zone `fA`)
and then `cfgB` (declaring only `fB`) in the same process, the `fA` entry
created by the first pass is still present in the zone registry — the
registries do not start empty and are not discarded between passes. -/
theorem claim_C8_counterexample : twoPassZoneA = some (some facAZone) := by
  decide

/-! ## C3: cluster-mode filesystem mounting -/

/-- The per-node mount loop, characterized: when the substitution loop
terminates for every listed node index, the loop succeeds and produces one
partition per index, mounted at the loop's result, in index order, all with
the declared capacity. -/
theorem mountNodes_ok (fuel : Nat) (tpl pre suf sbn size : String) (R : Nat → List Char) :
    ∀ (l : List Nat) (acc : List PartRec × BuildState),
      (∀ i ∈ l, substLoop (pre ++ toString i ++ suf).data fuel tpl.data = some (R i)) →
      ∃ t, mount_cluster_nodes fuel tpl pre suf sbn size l acc = .ok t ∧
        t.1.map PartRec.mount = acc.1.map PartRec.mount ++ l.map (fun i => String.mk (R i)) ∧
        t.1.map PartRec.size = acc.1.map PartRec.size ++ l.map (fun _ => size) ∧
        t.1.length = acc.1.length + l.length := by
  intro l
  induction l with
  | nil => intro acc h; exact ⟨acc, rfl, by simp, by simp, by simp⟩
  | cons i rest ih =>
    intro acc h
    have hi := h i (List.mem_cons_self i rest)
    obtain ⟨t, ht, hm, hs, hl⟩ := ih
      (acc.1 ++ [{ mount := String.mk (R i)
                   storage := ((lookupStorage acc.2
                     ((pre ++ toString i ++ suf) ++ "_" ++ sbn)).1).map StorageRec.name
                   size := size }],
       (lookupStorage acc.2 ((pre ++ toString i ++ suf) ++ "_" ++ sbn)).2)
      (fun j hj => h j (List.mem_cons_of_mem i hj))
    refine ⟨t, ?_, ?_, ?_, ?_⟩
    · simp only [mount_cluster_nodes, hi]
      exact ht
    · rw [hm]; simp
    · rw [hs]; simp
    · rw [hl]; simp; omega

/-- C3 (amended): for every cluster-mode filesystem entry whose cluster
lookup yields `(pre, suf, N, sbn)` and whose placeholder-substitution loop
terminates for every node index (with result `R i` within the available
fuel), the builder succeeds, appends one filesystem whose partitions are
exactly one per node index `0..N-1` in order — each mounted at the
template with the placeholder substituted by that node's hostname, no
occurrence remaining — all with the declared size, and registers the
filesystem against the looked-up cluster zone handle exactly once. -/
theorem claim_C3 (cfg : Config) (fuel : Nat) (fc : FsCfg) (cn : String) (s : BuildState)
    (pre suf sbn : String) (N : Nat) (R : Nat → List Char)
    (hss : fc.storage_system = none) (hc : fc.cluster = some cn)
    (hspec : find_cluster_spec cfg cn = (pre, suf, N, sbn))
    (hsub : ∀ i, i < N →
      substLoop (pre ++ toString i ++ suf).data fuel fc.mount_point.data = some (R i)) :
    ∃ t zh parts, create_filesystem_entry fuel cfg s fc = .ok t ∧
      t.filesystems = s.filesystems ++
        [{ name := fc.name, maxOpenFiles := 100000000
           partitions := parts, registrations := [zh] }] ∧
      parts.length = N ∧
      parts.map PartRec.mount = (List.range N).map (fun i => String.mk (R i)) ∧
      parts.map PartRec.size = (List.range N).map (fun _ => fc.size) ∧
      (∀ i, i < N → ¬ hostPat <:+: R i) := by
  obtain ⟨pr, hpr, hm, hsz, hl⟩ :=
    mountNodes_ok fuel fc.mount_point pre suf sbn fc.size R (List.range N) ([], s)
      (fun i hi => hsub i (List.mem_range.mp hi))
  have hstep : create_filesystem_entry fuel cfg s fc = .ok
      { (lookupZone pr.2 cn).2 with
        filesystems := (lookupZone pr.2 cn).2.filesystems ++
          [{ name := fc.name, maxOpenFiles := 100000000, partitions := pr.1
             registrations := [((lookupZone pr.2 cn).1).map ZoneRec.name] }] } := by
    simp only [create_filesystem_entry, hss, hc, hspec, hpr]
  refine ⟨_, ((lookupZone pr.2 cn).1).map ZoneRec.name, pr.1, hstep, ?_, ?_, ?_, ?_, ?_⟩
  · show (lookupZone pr.2 cn).2.filesystems ++ _ = s.filesystems ++ _
    rw [(lookupZone_rest _ _).2.2,
      mountNodes_filesystems (List.range N) fuel fc.mount_point pre suf sbn fc.size
        ([], s) pr hpr]
  · simpa using hl
  · simpa using hm
  · simpa using hsz
  · intro i hi
    exact subst_result_no_pattern (hsub i hi)

/-- C3 witness: the spec's example — template `"/\x7bhostname\x7d/scratch/"`
over the three-node cluster `c0` produces partitions mounted at
`/n0/scratch/`, `/n1/scratch/`, `/n2/scratch/`. -/
theorem claim_C3_witness :
    ∃ t zh parts, create_filesystem_entry 1 cfgS emptyState fsScratch = .ok t ∧
      t.filesystems = emptyState.filesystems ++
        [{ name := fsScratch.name, maxOpenFiles := 100000000
           partitions := parts, registrations := [zh] }] ∧
      parts.length = 3 ∧
      parts.map PartRec.mount = (List.range 3).map
        (fun i => String.mk (("/n" ++ toString i ++ "/scratch/").data)) ∧
      parts.map PartRec.size = (List.range 3).map (fun _ => fsScratch.size) ∧
      (∀ i, i < 3 → ¬ hostPat <:+: ("/n" ++ toString i ++ "/scratch/").data) :=
  claim_C3 cfgS 1 fsScratch "c0" emptyState "n" "" "scratch" 3
    (fun i => ("/n" ++ toString i ++ "/scratch/").data)
    rfl rfl (by decide) (by decide)

/-- C3 counterexample: with cluster `cdiv` (hostname prefix equal to the
placeholder) and a template containing the placeholder, the cluster-mode
entry never mounts a partition and never registers the filesystem: at every
fuel the model returns the divergence marker (the C++ loop runs forever),
although the cluster's count is 1, so the claim demands one partition. -/
theorem claim_C3_counterexample :
    FsPassAlwaysDiverges cfgDiv fsDiv ∧ (find_cluster_spec cfgDiv "cdiv").2.2.1 = 1 := by
  refine ⟨?_, by decide⟩
  intro fuel s
  have hdiv : substLoop ("\x7bhostname\x7d" ++ toString 0 ++ "").data fuel
      "/\x7bhostname\x7d/x".data = none :=
    subst_diverges_of_infix (by decide) (by decide) fuel
  simp only [create_filesystem_entry, fsDiv]
  rw [show find_cluster_spec cfgDiv "cdiv" =
    ("\x7bhostname\x7d", "", 1, "scratch") from by decide]
  simp only [mount_cluster_nodes, List.range_succ, List.range_zero, hdiv]

/-- C6 witness: the theorem at the concrete specification `storageCfgOdd`
(type `"RAID5"`) from the empty registry state. -/
theorem claim_C6_witness :
    (create_storage_system_zone emptyState storageCfgOdd).storages = emptyState.storages ∧
    (emptyState.storages (storageCfgOdd.name ++ "_storage") = none →
      (create_storage_system_zone emptyState storageCfgOdd).storages
        (storageCfgOdd.name ++ "_storage") = none) ∧
    (create_storage_system_zone emptyState storageCfgOdd).zones storageCfgOdd.name =
      some (some { name := storageCfgOdd.name, kind := .emptyZone
                   hosts := [{ name := storageCfgOdd.name ++ "_server"
                               speed := storageCfgOdd.server_speed
                               cores := 1, disks := [] }]
                   links := [], routes := [], router := none, sealed := true }) :=
  claim_C6 emptyState storageCfgOdd (by decide) (by decide)

/-! ## C7: determinism of the registries across repeated compiles

The second `load_platform` call in a process starts from the registries the
first call left behind (the C++ globals are never cleared).  For a valid
document — one whose first pass resolved every reference, i.e. the ghost
flag is still down — we prove the second pass succeeds and ends with
pointwise identical registries, by a simulation argument with invariant
`SimInv`. -/

theorem flag_false_back {a b : Bool} (mono : a = true → b = true) (h : b = false) :
    a = false := by
  cases ha : a
  · rfl
  · rw [mono ha] at h; cases h

theorem route_step_flag_mono (p : ZoneRec × BuildState) (rc : RouteCfg)
    (h : p.2.missedLookup = true) : (route_step p rc).2.missedLookup = true := by
  show (collectRouteLinks (lookupZone (lookupZone p.2 rc.src).2 rc.dst).2 rc.links).2.missedLookup = true
  rw [collectRouteLinks]
  exact linkFold_flag_mono rc.links _
    (lookupZone_flag_mono rc.dst (lookupZone_flag_mono rc.src h))

theorem routeFold_flag_mono :
    ∀ (rts : List RouteCfg) (p : ZoneRec × BuildState),
      p.2.missedLookup = true → (rts.foldl route_step p).2.missedLookup = true := by
  intro rts
  induction rts with
  | nil => intro p h; exact h
  | cons rc rest ih =>
    intro p h
    rw [List.foldl_cons]
    exact ih _ (route_step_flag_mono p rc h)

theorem storageFold_flag :
    ∀ (scs : List StorageSystemCfg) (s : BuildState),
      (scs.foldl create_storage_system_zone s).missedLookup = s.missedLookup := by
  intro scs
  induction scs with
  | nil => intro s; rfl
  | cons sc rest ih => intro s; rw [List.foldl_cons, ih]; exact rfl

theorem clusterFold_flag :
    ∀ (cs : List ClusterCfg) (s : BuildState),
      (cs.foldl create_cluster_zone s).missedLookup = s.missedLookup := by
  intro cs
  induction cs with
  | nil => intro s; rfl
  | cons c rest ih => intro s; rw [List.foldl_cons, ih]; exact rfl

theorem izLinkFold_flag :
    ∀ (lks : List IZLinkCfg) (p : ZoneRec × BuildState),
      (lks.foldl iz_link_step p).2.missedLookup = p.2.missedLookup := by
  intro lks
  induction lks with
  | nil => intro p; rfl
  | cons lc rest ih => intro p; rw [List.foldl_cons, ih]; exact rfl

theorem build_facility_flag_mono {s t : BuildState} {dc : FacilityCfg}
    (hb : build_facility s dc = .ok t) (h : s.missedLookup = true) :
    t.missedLookup = true := by
  unfold build_facility at hb
  cases hr : dc.routing with
  | none => rw [hr] at hb; cases hb
  | some r =>
    rw [hr] at hb
    injection hb with h2
    subst h2
    show (create_routes _ _ dc.routes).2.missedLookup = true
    rw [create_routes]
    refine routeFold_flag_mono dc.routes _ ?_
    show (create_inter_zone_links _ _ dc.links).2.missedLookup = true
    rw [create_inter_zone_links, izLinkFold_flag, clusterFold_flag, storageFold_flag]
    exact h

theorem build_facilities_flag_mono :
    ∀ (dcs : List FacilityCfg) (s t : BuildState),
      build_facilities s dcs = .ok t → s.missedLookup = true →
      t.missedLookup = true := by
  intro dcs
  induction dcs with
  | nil => intro s t h hf; cases h; exact hf
  | cons dc rest ih =>
    intro s t h hf
    unfold build_facilities at h
    cases hb : build_facility s dc with
    | error e => rw [hb] at h; cases h
    | ok s2 => rw [hb] at h; exact ih s2 t h (build_facility_flag_mono hb hf)

theorem mountNodes_flag_mono :
    ∀ (l : List Nat) (fuel : Nat) (tpl pre suf sbn size : String)
      (acc pr : List PartRec × BuildState),
      mount_cluster_nodes fuel tpl pre suf sbn size l acc = .ok pr →
      acc.2.missedLookup = true → pr.2.missedLookup = true := by
  intro l
  induction l with
  | nil => intro fuel tpl pre suf sbn size acc pr h hf; cases h; exact hf
  | cons i rest ih =>
    intro fuel tpl pre suf sbn size acc pr h hf
    simp only [mount_cluster_nodes] at h
    cases hsub : substLoop (pre ++ toString i ++ suf).data fuel tpl.data with
    | none => rw [hsub] at h; cases h
    | some mchars =>
      rw [hsub] at h
      exact ih fuel tpl pre suf sbn size _ pr h (lookupStorage_flag_mono _ hf)

theorem fs_entry_flag_mono {fuel : Nat} {cfg : Config} {s : BuildState} {fc : FsCfg}
    {t : BuildState} (h : create_filesystem_entry fuel cfg s fc = .ok t)
    (hf : s.missedLookup = true) : t.missedLookup = true := by
  cases hss : fc.storage_system with
  | some ssn =>
    simp only [create_filesystem_entry, hss, Except.ok.injEq] at h
    subst h
    exact lookupStorage_flag_mono _ (lookupZone_flag_mono ssn hf)
  | none =>
    cases hc : fc.cluster with
    | some cn =>
      simp only [create_filesystem_entry, hss, hc] at h
      cases hmn : mount_cluster_nodes fuel fc.mount_point (find_cluster_spec cfg cn).1
          (find_cluster_spec cfg cn).2.1 (find_cluster_spec cfg cn).2.2.2 fc.size
          (List.range (find_cluster_spec cfg cn).2.2.1) ([], s) with
      | error e => rw [hmn] at h; cases h
      | ok pr =>
        rw [hmn] at h
        simp only [Except.ok.injEq] at h
        subst h
        exact lookupZone_flag_mono cn
          (mountNodes_flag_mono _ _ _ _ _ _ _ _ _ hmn hf)
    | none =>
      simp only [create_filesystem_entry, hss, hc, Except.ok.injEq] at h
      subst h
      exact hf

theorem create_filesystems_flag_mono :
    ∀ (fss : List FsCfg) (fuel : Nat) (cfg : Config) (s t : BuildState),
      create_filesystems fuel cfg s fss = .ok t → s.missedLookup = true →
      t.missedLookup = true := by
  intro fss
  induction fss with
  | nil => intro fuel cfg s t h hf; cases h; exact hf
  | cons fc rest ih =>
    intro fuel cfg s t h hf
    unfold create_filesystems at h
    cases he : create_filesystem_entry fuel cfg s fc with
    | error e => rw [he] at h; cases h
    | ok s2 => rw [he] at h; exact ih fuel cfg s2 t h (fs_entry_flag_mono he hf)

theorem regMatch_set {R : Type} (T : Reg R) {m1 m2 : Reg R} (k : String) (v : Option R)
    (h : RegMatch T m1 m2) : RegMatch T (regSet m1 k v) (regSet m2 k v) := by
  intro q
  by_cases hq : q = k
  · left
    rw [hq, regSet_self, regSet_self]
  · rw [regSet_other _ _ hq, regSet_other _ _ hq]
    exact h q

/-- A registry read performed at a key the first pass holds a real entry
for: both passes return that entry and change nothing. -/
theorem lookupZone_sim {T u v : BuildState} {k : String} {x : Option ZoneRec}
    (hinv : SimInv T u v) (hx : u.zones k = some x) :
    lookupZone u k = (x, u) ∧ lookupZone v k = (x, v) := by
  refine ⟨lookupZone_hit hx, ?_⟩
  rcases hinv.1 k with h | h
  · exact lookupZone_hit (h.trans hx)
  · rw [h.1] at hx; cases hx

theorem lookupLink_sim {T u v : BuildState} {k : String} {x : Option LinkRec}
    (hinv : SimInv T u v) (hx : u.linkReg k = some x) :
    lookupLink u k = (x, u) ∧ lookupLink v k = (x, v) := by
  refine ⟨lookupLink_hit hx, ?_⟩
  rcases hinv.2.1 k with h | h
  · exact lookupLink_hit (h.trans hx)
  · rw [h.1] at hx; cases hx

theorem lookupStorage_sim {T u v : BuildState} {k : String} {x : Option StorageRec}
    (hinv : SimInv T u v) (hx : u.storages k = some x) :
    lookupStorage u k = (x, u) ∧ lookupStorage v k = (x, v) := by
  refine ⟨lookupStorage_hit hx, ?_⟩
  rcases hinv.2.2.1 k with h | h
  · exact lookupStorage_hit (h.trans hx)
  · rw [h.1] at hx; cases hx

theorem create_storage_sim (T : BuildState) {u v : BuildState} (sc : StorageSystemCfg)
    (h : SimInv T u v) :
    SimInv T (create_storage_system_zone u sc) (create_storage_system_zone v sc) := by
  unfold create_storage_system_zone
  refine ⟨regMatch_set _ _ _ h.1, h.2.1, ?_, h.2.2.2⟩
  by_cases hj : sc.stype = "JBOD"
  · simp only [if_pos hj]
    exact regMatch_set _ _ _ h.2.2.1
  · by_cases ho : sc.stype = "OneDisk"
    · simp only [if_neg hj, if_pos ho]
      exact regMatch_set _ _ _ h.2.2.1
    · simp only [if_neg hj, if_neg ho]
      exact h.2.2.1

theorem cluster_fold_storages_sim (Tst : Reg StorageRec) (c : ClusterCfg) :
    ∀ (l : List Nat) (p q : ZoneRec × Reg StorageRec),
      RegMatch Tst p.2 q.2 →
      RegMatch Tst (l.foldl (add_cluster_node c) p).2 (l.foldl (add_cluster_node c) q).2 := by
  intro l
  induction l with
  | nil => intro p q h; exact h
  | cons i rest ih =>
    intro p q h
    rw [List.foldl_cons, List.foldl_cons]
    refine ih _ _ ?_
    unfold add_cluster_node
    cases hs : c.node.storage with
    | none => exact h
    | some sc =>
      simp only
      by_cases ho : sc.stype = "OneDisk"
      · simp only [if_pos ho]
        exact regMatch_set _ _ _ h
      · by_cases hj : sc.stype = "JBOD"
        · simp only [if_neg ho, if_pos hj]
          exact regMatch_set _ _ _ h
        · simp only [if_neg ho, if_neg hj]
          exact h

theorem create_cluster_sim (T : BuildState) {u v : BuildState} (c : ClusterCfg)
    (h : SimInv T u v) :
    SimInv T (create_cluster_zone u c) (create_cluster_zone v c) := by
  have hz : (cluster_expand c u.storages).1 = (cluster_expand c v.storages).1 :=
    (cluster_expand_spec c u.storages).trans (cluster_expand_spec c v.storages).symm
  unfold create_cluster_zone
  refine ⟨?_, h.2.1, ?_, h.2.2.2⟩
  · show RegMatch T.zones
      (regSet u.zones c.name (some { (cluster_expand c u.storages).1 with
        router := some (c.name ++ "_router"), sealed := true }))
      (regSet v.zones c.name (some { (cluster_expand c v.storages).1 with
        router := some (c.name ++ "_router"), sealed := true }))
    rw [hz]
    exact regMatch_set _ _ _ h.1
  · show RegMatch T.storages (cluster_expand c u.storages).2 (cluster_expand c v.storages).2
    rw [cluster_expand, cluster_expand]
    exact cluster_fold_storages_sim T.storages c _ _ _ h.2.2.1

theorem storageFold_sim (T : BuildState) :
    ∀ (scs : List StorageSystemCfg) {u v : BuildState}, SimInv T u v →
      SimInv T (scs.foldl create_storage_system_zone u)
        (scs.foldl create_storage_system_zone v) := by
  intro scs
  induction scs with
  | nil => intro u v h; exact h
  | cons sc rest ih =>
    intro u v h
    rw [List.foldl_cons, List.foldl_cons]
    exact ih (create_storage_sim T sc h)

theorem clusterFold_sim (T : BuildState) :
    ∀ (cs : List ClusterCfg) {u v : BuildState}, SimInv T u v →
      SimInv T (cs.foldl create_cluster_zone u) (cs.foldl create_cluster_zone v) := by
  intro cs
  induction cs with
  | nil => intro u v h; exact h
  | cons c rest ih =>
    intro u v h
    rw [List.foldl_cons, List.foldl_cons]
    exact ih (create_cluster_sim T c h)

theorem setZone_sim (T : BuildState) {u v : BuildState} (k : String) (val : Option ZoneRec)
    (h : SimInv T u v) :
    SimInv T { u with zones := regSet u.zones k val }
      { v with zones := regSet v.zones k val } :=
  ⟨regMatch_set _ _ _ h.1, h.2.1, h.2.2.1, h.2.2.2⟩

theorem izLinkFold_sim (T : BuildState) :
    ∀ (lks : List IZLinkCfg) (z1 z2 : ZoneRec) {u v : BuildState}, SimInv T u v →
      SimInv T (lks.foldl iz_link_step (z1, u)).2 (lks.foldl iz_link_step (z2, v)).2 := by
  intro lks
  induction lks with
  | nil => intro z1 z2 u v h; exact h
  | cons lc rest ih =>
    intro z1 z2 u v h
    rw [List.foldl_cons, List.foldl_cons]
    exact ih _ _ ⟨h.1, regMatch_set _ _ _ h.2.1, h.2.2.1, h.2.2.2⟩

theorem linkFold_sim (T : BuildState) :
    ∀ (names : List String) (l1 l2 : List (Option String)) {u v : BuildState},
      SimInv T u v → l1 = l2 →
      (names.foldl link_lookup_step (l1, u)).2.missedLookup = false →
      SimInv T (names.foldl link_lookup_step (l1, u)).2
        (names.foldl link_lookup_step (l2, v)).2 ∧
      (names.foldl link_lookup_step (l1, u)).1 =
        (names.foldl link_lookup_step (l2, v)).1 ∧
      u.missedLookup = false := by
  intro names
  induction names with
  | nil =>
    intro l1 l2 u v h hl hf
    exact ⟨h, hl, hf⟩
  | cons n rest ih =>
    intro l1 l2 u v h hl hf
    simp only [List.foldl_cons] at hf ⊢
    cases hx : u.linkReg n with
    | none =>
      exfalso
      have h1 : (link_lookup_step (l1, u) n).2.missedLookup = true := by
        show (lookupLink u n).2.missedLookup = true
        rw [lookupLink_miss hx]
      rw [linkFold_flag_mono rest _ h1] at hf
      cases hf
    | some x =>
      obtain ⟨hu1, hv1⟩ := lookupLink_sim h hx
      have hstep_u : link_lookup_step (l1, u) n = (l1 ++ [x.map LinkRec.name], u) := by
        unfold link_lookup_step
        rw [hu1]
      have hstep_v : link_lookup_step (l2, v) n = (l2 ++ [x.map LinkRec.name], v) := by
        unfold link_lookup_step
        rw [hv1]
      rw [hstep_u] at hf ⊢
      rw [hstep_v]
      exact ih _ _ h (by rw [hl]) hf

theorem route_step_sim (T : BuildState) (rc : RouteCfg) (z : ZoneRec)
    {u v : BuildState} (h : SimInv T u v)
    (hflag : (route_step (z, u) rc).2.missedLookup = false) :
    SimInv T (route_step (z, u) rc).2 (route_step (z, v) rc).2 ∧
    (route_step (z, u) rc).1 = (route_step (z, v) rc).1 ∧
    u.missedLookup = false := by
  have hshape : ∀ (w : BuildState),
      route_step (z, w) rc =
        ({ z with routes := z.routes ++
            [{ src := match (lookupZone w rc.src).1 with
                 | some zz => .zone zz.name | none => .null
               dst := match (lookupZone (lookupZone w rc.src).2 rc.dst).1 with
                 | some zz => .zone zz.name | none => .null
               links := (collectRouteLinks (lookupZone (lookupZone w rc.src).2 rc.dst).2
                 rc.links).1
               symmetric := true }] },
         (collectRouteLinks (lookupZone (lookupZone w rc.src).2 rc.dst).2 rc.links).2) :=
    fun w => rfl
  cases hsrc : u.zones rc.src with
  | none =>
    exfalso
    have h1 : (lookupZone u rc.src).2.missedLookup = true := by
      rw [lookupZone_miss hsrc]
    rw [hshape u] at hflag
    simp only at hflag
    rw [collectRouteLinks,
      linkFold_flag_mono rc.links _ (lookupZone_flag_mono rc.dst h1)] at hflag
    cases hflag
  | some x =>
    obtain ⟨hu1, hv1⟩ := lookupZone_sim h hsrc
    cases hdst : u.zones rc.dst with
    | none =>
      exfalso
      have h1 : (lookupZone u rc.dst).2.missedLookup = true := by
        rw [lookupZone_miss hdst]
      rw [hshape u] at hflag
      simp only [hu1] at hflag
      rw [collectRouteLinks, linkFold_flag_mono rc.links _ h1] at hflag
      cases hflag
    | some y =>
      obtain ⟨hu2, hv2⟩ := lookupZone_sim h hdst
      rw [hshape u] at hflag
      simp only [hu1, hu2] at hflag
      rw [collectRouteLinks] at hflag
      obtain ⟨hsim, hlst, hufl⟩ := linkFold_sim T rc.links [] [] h rfl hflag
      refine ⟨?_, ?_, hufl⟩
      · rw [hshape u, hshape v]
        simp only [hu1, hv1, hu2, hv2]
        rw [collectRouteLinks, collectRouteLinks]
        exact hsim
      · rw [hshape u, hshape v]
        simp only [hu1, hv1, hu2, hv2]
        rw [collectRouteLinks, collectRouteLinks, hlst]

theorem routeFold_sim (T : BuildState) :
    ∀ (rts : List RouteCfg) (z : ZoneRec) {u v : BuildState}, SimInv T u v →
      (rts.foldl route_step (z, u)).2.missedLookup = false →
      SimInv T (rts.foldl route_step (z, u)).2 (rts.foldl route_step (z, v)).2 ∧
      (rts.foldl route_step (z, u)).1 = (rts.foldl route_step (z, v)).1 ∧
      u.missedLookup = false := by
  intro rts
  induction rts with
  | nil => intro z u v h hf; exact ⟨h, rfl, hf⟩
  | cons rc rest ih =>
    intro z u v h hf
    simp only [List.foldl_cons] at hf ⊢
    have hstep_flag : (route_step (z, u) rc).2.missedLookup = false :=
      flag_false_back (routeFold_flag_mono rest (route_step (z, u) rc)) hf
    obtain ⟨hsim1, hfst1, hufl⟩ := route_step_sim T rc z h hstep_flag
    have hpair_u : route_step (z, u) rc =
        ((route_step (z, u) rc).1, (route_step (z, u) rc).2) := rfl
    have hpair_v : route_step (z, v) rc =
        ((route_step (z, u) rc).1, (route_step (z, v) rc).2) := by
      rw [hfst1]
    rw [hpair_u] at hf ⊢
    rw [hpair_v]
    obtain ⟨ha, hb, _⟩ := ih (route_step (z, u) rc).1 hsim1 hf
    exact ⟨ha, hb, hufl⟩

theorem build_facility_eq (s : BuildState) (dc : FacilityCfg) (r : String)
    (hr : dc.routing = some r) :
    build_facility s dc = .ok
      { (facLR dc r (facPre dc r s)).2 with
        zones := regSet (facLR dc r (facPre dc r s)).2.zones dc.name
          (some { (facLR dc r (facPre dc r s)).1 with sealed := true }) } := by
  unfold build_facility
  rw [hr]
  exact rfl

theorem facLR_sim (T : BuildState) (dc : FacilityCfg) (r : String) {u v : BuildState}
    (h : SimInv T u v) (hflag : (facLR dc r u).2.missedLookup = false) :
    SimInv T (facLR dc r u).2 (facLR dc r v).2 ∧
      (facLR dc r u).1 = (facLR dc r v).1 := by
  have hz : (create_inter_zone_links (facility_zone0 dc r) u dc.links).1 =
      (create_inter_zone_links (facility_zone0 dc r) v dc.links).1 := by
    rw [create_inter_zone_links, create_inter_zone_links, izLinkFold_fst, izLinkFold_fst]
  have hsim0 : SimInv T (create_inter_zone_links (facility_zone0 dc r) u dc.links).2
      (create_inter_zone_links (facility_zone0 dc r) v dc.links).2 :=
    izLinkFold_sim T dc.links _ _ h
  simp only [facLR, create_routes] at hflag ⊢
  rw [← hz]
  obtain ⟨ha, hb, _⟩ := routeFold_sim T dc.routes _ hsim0 hflag
  exact ⟨ha, hb⟩

theorem build_facility_sim (T : BuildState) (dc : FacilityCfg) {u v t1 : BuildState}
    (h : SimInv T u v) (hb : build_facility u dc = .ok t1)
    (hflag : t1.missedLookup = false) :
    ∃ t2, build_facility v dc = .ok t2 ∧ SimInv T t1 t2 := by
  cases hr : dc.routing with
  | none => unfold build_facility at hb; rw [hr] at hb; cases hb
  | some r =>
    rw [build_facility_eq u dc r hr] at hb
    injection hb with hb
    subst hb
    have hpre : SimInv T (facPre dc r u) (facPre dc r v) :=
      clusterFold_sim T _ (storageFold_sim T _ (setZone_sim T _ _ h))
    have hflag2 : (facLR dc r (facPre dc r u)).2.missedLookup = false := hflag
    obtain ⟨hsim, hfst⟩ := facLR_sim T dc r hpre hflag2
    refine ⟨_, build_facility_eq v dc r hr, ?_⟩
    rw [← hfst]
    exact ⟨regMatch_set _ _ _ hsim.1, hsim.2.1, hsim.2.2.1, hsim.2.2.2⟩

theorem build_facilities_sim (T : BuildState) :
    ∀ (dcs : List FacilityCfg) {u v t1 : BuildState}, SimInv T u v →
      build_facilities u dcs = .ok t1 → t1.missedLookup = false →
      ∃ t2, build_facilities v dcs = .ok t2 ∧ SimInv T t1 t2 := by
  intro dcs
  induction dcs with
  | nil =>
    intro u v t1 h hb hflag
    cases hb
    exact ⟨v, rfl, h⟩
  | cons dc rest ih =>
    intro u v t1 h hb hflag
    unfold build_facilities at hb
    cases hb1 : build_facility u dc with
    | error e => rw [hb1] at hb; cases hb
    | ok s2 =>
      rw [hb1] at hb
      have hs2flag : s2.missedLookup = false :=
        flag_false_back (fun hh => build_facilities_flag_mono rest s2 t1 hb hh) hflag
      obtain ⟨s2v, hbv, hsim2⟩ := build_facility_sim T dc h hb1 hs2flag
      obtain ⟨t2, hbt, hsimt⟩ := ih hsim2 hb hflag
      refine ⟨t2, ?_, hsimt⟩
      unfold build_facilities
      rw [hbv]
      exact hbt

theorem mountNodes_sim (T : BuildState) :
    ∀ (l : List Nat) (fuel : Nat) (tpl pre suf sbn size : String)
      (p1 p2 : List PartRec) {u v : BuildState}, SimInv T u v → p1 = p2 →
      ∀ (pr : List PartRec × BuildState),
      mount_cluster_nodes fuel tpl pre suf sbn size l (p1, u) = .ok pr →
      pr.2.missedLookup = false →
      ∃ qr, mount_cluster_nodes fuel tpl pre suf sbn size l (p2, v) = .ok qr ∧
        SimInv T pr.2 qr.2 ∧ pr.1 = qr.1 := by
  intro l
  induction l with
  | nil =>
    intro fuel tpl pre suf sbn size p1 p2 u v h hl pr hm hflag
    cases hm
    exact ⟨(p2, v), rfl, h, hl⟩
  | cons i rest ih =>
    intro fuel tpl pre suf sbn size p1 p2 u v h hl pr hm hflag
    simp only [mount_cluster_nodes] at hm ⊢
    cases hsub : substLoop (pre ++ toString i ++ suf).data fuel tpl.data with
    | none => rw [hsub] at hm; cases hm
    | some mchars =>
      rw [hsub] at hm
      cases hx : u.storages (pre ++ toString i ++ suf ++ "_" ++ sbn) with
      | none =>
        exfalso
        have h1 : (lookupStorage u (pre ++ toString i ++ suf ++ "_" ++ sbn)).2.missedLookup
            = true := by
          rw [lookupStorage_miss hx]
        have h2 := mountNodes_flag_mono rest fuel tpl pre suf sbn size _ pr hm h1
        rw [h2] at hflag
        cases hflag
      | some x =>
        obtain ⟨hu1, hv1⟩ := lookupStorage_sim h hx
        rw [hu1] at hm
        rw [hv1]
        exact ih fuel tpl pre suf sbn size
          (p1 ++ [{ mount := String.mk mchars, storage := x.map StorageRec.name
                    size := size }])
          (p2 ++ [{ mount := String.mk mchars, storage := x.map StorageRec.name
                    size := size }])
          h (by rw [hl]) pr hm hflag

theorem fs_entry_sim (T : BuildState) (fuel : Nat) (cfg : Config) (fc : FsCfg)
    {u v t1 : BuildState} (h : SimInv T u v)
    (hb : create_filesystem_entry fuel cfg u fc = .ok t1)
    (hflag : t1.missedLookup = false) :
    ∃ t2, create_filesystem_entry fuel cfg v fc = .ok t2 ∧ SimInv T t1 t2 := by
  cases hss : fc.storage_system with
  | some ssn =>
    simp only [create_filesystem_entry, hss, Except.ok.injEq] at hb
    subst hb
    have hflag2 : (lookupStorage (lookupZone u ssn).2 (ssn ++ "_storage")).2.missedLookup
        = false := hflag
    cases hz : u.zones ssn with
    | none =>
      exfalso
      have h1 : (lookupZone u ssn).2.missedLookup = true := by rw [lookupZone_miss hz]
      rw [lookupStorage_flag_mono _ h1] at hflag2
      cases hflag2
    | some x =>
      obtain ⟨hu1, hv1⟩ := lookupZone_sim h hz
      simp only [create_filesystem_entry, hss]
      rw [hu1] at hflag2 ⊢
      rw [hv1]
      cases hs2 : u.storages (ssn ++ "_storage") with
      | none =>
        exfalso
        rw [lookupStorage_miss hs2] at hflag2
        cases hflag2
      | some y =>
        obtain ⟨hu2, hv2⟩ := lookupStorage_sim h hs2
        rw [hu2, hv2]
        exact ⟨_, rfl, h.1, h.2.1, h.2.2.1, h.2.2.2⟩
  | none =>
    cases hc : fc.cluster with
    | some cn =>
      simp only [create_filesystem_entry, hss, hc] at hb ⊢
      cases hmn : mount_cluster_nodes fuel fc.mount_point (find_cluster_spec cfg cn).1
          (find_cluster_spec cfg cn).2.1 (find_cluster_spec cfg cn).2.2.2 fc.size
          (List.range (find_cluster_spec cfg cn).2.2.1) ([], u) with
      | error e => rw [hmn] at hb; cases hb
      | ok pr =>
        rw [hmn] at hb
        simp only [Except.ok.injEq] at hb
        subst hb
        have hflag0 : (lookupZone pr.2 cn).2.missedLookup = false := hflag
        have hprflag : pr.2.missedLookup = false :=
          flag_false_back (lookupZone_flag_mono cn) hflag0
        obtain ⟨qr, hqm, hqsim, hqfst⟩ :=
          mountNodes_sim T (List.range (find_cluster_spec cfg cn).2.2.1) fuel
            fc.mount_point (find_cluster_spec cfg cn).1 (find_cluster_spec cfg cn).2.1
            (find_cluster_spec cfg cn).2.2.2 fc.size [] [] h rfl pr hmn hprflag
        rw [hqm]
        cases hz : pr.2.zones cn with
        | none =>
          exfalso
          rw [lookupZone_miss hz] at hflag0
          cases hflag0
        | some z =>
          obtain ⟨hu1, hv1⟩ := lookupZone_sim hqsim hz
          refine ⟨_, rfl, ?_⟩
          rw [hu1, hv1]
          exact ⟨hqsim.1, hqsim.2.1, hqsim.2.2.1, hqsim.2.2.2⟩
    | none =>
      simp only [create_filesystem_entry, hss, hc, Except.ok.injEq] at hb
      subst hb
      have hv : create_filesystem_entry fuel cfg v fc = .ok { v with filesystems :=
          v.filesystems ++ [{ name := fc.name, maxOpenFiles := 100000000
                              partitions := [], registrations := [] }] } := by
        simp only [create_filesystem_entry, hss, hc]
      exact ⟨_, hv, h.1, h.2.1, h.2.2.1, h.2.2.2⟩

theorem create_filesystems_sim (T : BuildState) :
    ∀ (fss : List FsCfg) (fuel : Nat) (cfg : Config) {u v t1 : BuildState}, SimInv T u v →
      create_filesystems fuel cfg u fss = .ok t1 → t1.missedLookup = false →
      ∃ t2, create_filesystems fuel cfg v fss = .ok t2 ∧ SimInv T t1 t2 := by
  intro fss
  induction fss with
  | nil =>
    intro fuel cfg u v t1 h hb hflag
    cases hb
    exact ⟨v, rfl, h⟩
  | cons fc rest ih =>
    intro fuel cfg u v t1 h hb hflag
    unfold create_filesystems at hb
    cases hb1 : create_filesystem_entry fuel cfg u fc with
    | error e => rw [hb1] at hb; cases hb
    | ok s2 =>
      rw [hb1] at hb
      have hs2flag : s2.missedLookup = false :=
        flag_false_back
          (fun hh => create_filesystems_flag_mono rest fuel cfg s2 t1 hb hh) hflag
      obtain ⟨s2v, hbv, hsim2⟩ := fs_entry_sim T fuel cfg fc h hb1 hs2flag
      obtain ⟨t2, hbt, hsimt⟩ := ih fuel cfg hsim2 hb hflag
      refine ⟨t2, ?_, hsimt⟩
      unfold create_filesystems
      rw [hbv]
      exact hbt

/-- C7: compilation is deterministic for valid documents.  If a full
compile from empty registries succeeds and no registry lookup ever missed
(the ghost flag is still clear, i.e. every zone, link and storage name was
declared before use), then compiling the same document a second time — on
top of the registries the first pass left behind, as the process-global
maps do — succeeds and produces registries with exactly the same name sets
and the same per-name records. -/
theorem claim_C7 (cfg : Config) (fuel : Nat) (t1 : BuildState)
    (h1 : load_platform emptyState cfg fuel = .ok t1)
    (hvalid : t1.missedLookup = false) :
    ∃ t2, load_platform t1 cfg fuel = .ok t2 ∧
      (∀ k, t2.zones k = t1.zones k) ∧ (∀ k, t2.linkReg k = t1.linkReg k) ∧
      (∀ k, t2.storages k = t1.storages k) := by
  unfold load_platform at h1
  cases hbf : build_facilities emptyState cfg.facilities with
  | error e => rw [hbf] at h1; cases h1
  | ok s2 =>
    rw [hbf] at h1
    have hs2flag : s2.missedLookup = false :=
      flag_false_back
        (fun hh => create_filesystems_flag_mono cfg.filesystems fuel cfg s2 t1 h1 hh)
        hvalid
    have hinit : SimInv t1 emptyState t1 :=
      ⟨fun k => Or.inr ⟨rfl, rfl⟩, fun k => Or.inr ⟨rfl, rfl⟩,
       fun k => Or.inr ⟨rfl, rfl⟩, hvalid⟩
    obtain ⟨s2v, hbv, hsim2⟩ := build_facilities_sim t1 cfg.facilities hinit hbf hs2flag
    obtain ⟨t2, hbt, hsimt⟩ :=
      create_filesystems_sim t1 cfg.filesystems fuel cfg hsim2 h1 hvalid
    refine ⟨t2, ?_, ?_, ?_, ?_⟩
    · unfold load_platform
      rw [hbv]
      exact hbt
    · intro k
      rcases hsimt.1 k with hk | hk
      · exact hk
      · exact hk.2
    · intro k
      rcases hsimt.2.1 k with hk | hk
      · exact hk
      · exact hk.2
    · intro k
      rcases hsimt.2.2.1 k with hk | hk
      · exact hk
      · exact hk.2

theorem claim_C7_witness :
    ∃ t1 t2, load_platform emptyState cfgW 0 = .ok t1 ∧ t1.missedLookup = false ∧
      load_platform t1 cfgW 0 = .ok t2 ∧ (∀ k, t2.zones k = t1.zones k) ∧
      (∀ k, t2.linkReg k = t1.linkReg k) ∧ (∀ k, t2.storages k = t1.storages k) := by
  cases h : load_platform emptyState cfgW 0 with
  | error e =>
    exfalso
    have hok : loadsOk emptyState cfgW 0 = true := by decide
    unfold loadsOk at hok
    rw [h] at hok
    exact Bool.false_ne_true hok
  | ok t1 =>
    have hflag : t1.missedLookup = false := by
      have h2 : loadFlag emptyState cfgW 0 = false := by decide
      unfold loadFlag at h2
      rw [h] at h2
      exact h2
    obtain ⟨t2, ha, hz, hl, hs⟩ := claim_C7 cfgW 0 t1 h hflag
    exact ⟨t1, t2, rfl, hflag, ha, hz, hl, hs⟩

end NRTW
